import Mathlib

/-!
# The render command of the kube-controller-manager operator

A shallow embedding of `cmd/cluster-kube-controller-manager-operator/render/render.go`.

* Option records (`manifestOpts`, `renderOpts`) are Lean structures; methods with a
  pointer receiver return the receiver after the call next to their result.
* Go's `error` is `Option GoError` (`none` is `nil`); a value built by `errors.New` or
  `fmt.Errorf` is kept as data (format string and arguments) instead of rendered text.
* Everything outside the file (file system, template engine, asset loader, merge
  library, YAML codec, compiled-in assets) is a field of `World`; every call to one of
  them is appended to a log, so that what `Run` asked of its collaborators, in which
  order and with which arguments, can be stated.
-/

namespace Render

/-- Byte payloads (`[]byte`), carried as text. Go's `nil` slice is the empty payload:
every operation this file applies to a slice treats the two alike. -/
abbrev Bytes := String

/-! ## `path/filepath` (Unix) -/

namespace filepath

/-- Splits a path at every separator, keeping empty elements. -/
def splitSep : List Char → List (List Char)
  | [] => [[]]
  | c :: cs =>
    match splitSep cs with
    | [] => [[]]
    | e :: es => if c = '/' then [] :: e :: es else (c :: e) :: es

/-- One path element of `Clean`, processed against the elements kept so far (most recent
first): empty and `.` elements are dropped, `..` removes the last real element, is dropped
at the root, and is kept in front of a relative path. -/
def cleanStep (rooted : Bool) (out : List (List Char)) (e : List Char) : List (List Char) :=
  if e = [] ∨ e = ['.'] then out
  else if e = ['.', '.'] then
    match out with
    | [] => if rooted then [] else [e]
    | top :: rest => if top = ['.', '.'] then e :: out else rest
  else e :: out

/-- Go's `filepath.Clean`: the shortest path equivalent to `path` by purely lexical
processing; the empty result is turned into `.`. -/
def Clean (path : String) : String :=
  if path.data = [] then "."
  else
    let rooted : Bool := decide (path.data.head? = some '/')
    let out := ((splitSep path.data).foldl (cleanStep rooted) []).reverse
    let body := List.intercalate ['/'] out
    let res := if rooted then '/' :: body else body
    if res = [] then "." else String.mk res

/-- Go's `filepath.Join`: the elements from the first non-empty one on, joined with the
separator, then cleaned; the empty string when every element is empty. -/
def Join : List String → String
  | [] => ""
  | e :: rest =>
    if e.data = [] then Join rest
    else Clean (String.mk (List.intercalate ['/'] ((e :: rest).map String.data)))

end filepath

/-! ## Errors -/

/-- A Go `error` value: `errors.New(msg)`, or `fmt.Errorf(format, strs..., cause)` kept
with its format string, its string arguments and the wrapped error. -/
inductive GoError where
  | New (msg : String)
  | Errorf (format : String) (strs : List String) (cause : GoError)
  deriving DecidableEq, Repr

/-- What a call comes back with: a value, a returned error, or a Go panic. -/
inductive Res (α : Type) where
  | ok (v : α)
  | err (e : GoError)
  | panic (msg : String)
  deriving DecidableEq, Repr

/-- The first value of a Go call returning `([]byte, error)`: the bytes, or `nil` next to
an error. -/
def Res.bytes : Res Bytes → Bytes
  | .ok b => b
  | _ => ""

/-! ## Options -/

/-- Go's `manifestOpts`: values to parametrize the manifests. -/
structure manifestOpts where
  namespace_ : String
  image : String
  imagePullPolicy : String
  configHostPath : String
  configFileName : String
  cloudProviderHostPath : String
  secretsHostPath : String
  deriving DecidableEq, Repr

/-- Go's `renderOpts`: values to drive the render command. -/
structure renderOpts where
  manifest : manifestOpts
  templatesDir : String
  assetInputDir : String
  assetOutputDir : String
  configOverrideFile : String
  configOutputFile : String
  skipSchedulerBootstrapManifest : Bool
  deriving DecidableEq, Repr

/-- The options a flag of the render command can be bound to. -/
inductive Field where
  | namespace_ | image | imagePullPolicy | configHostPath | secretsHostPath
  | configFileName | cloudProviderHostPath
  | assetOutputDir | assetInputDir | templatesDir | configOverrideFile | configOutputFile
  | skipSchedulerBootstrapManifest
  deriving DecidableEq, Repr

/-- The flag name under which `NewRenderCommand` registers each option
(`cmd.Flags().StringVar(&renderOpts.<field>, "<name>", ...)`). -/
def NewRenderCommand.flagName : Field → String
  | .namespace_ => "manifest-namespace"
  | .image => "manifest-image"
  | .imagePullPolicy => "manifest-image-pull-policy"
  | .configHostPath => "manifest-config-host-path"
  | .secretsHostPath => "manifest-secrets-host-path"
  | .configFileName => "manifest-config-file-name"
  | .cloudProviderHostPath => "manifest-cloud-provider-host-path"
  | .assetOutputDir => "asset-output-dir"
  | .assetInputDir => "asset-input-dir"
  | .templatesDir => "templates-input-dir"
  | .configOverrideFile => "config-override-file"
  | .configOutputFile => "config-output-file"
  | .skipSchedulerBootstrapManifest => "skip-scheduler"

/-- The option values `NewRenderCommand` starts from: the default of every flag. -/
def NewRenderCommand.defaults : renderOpts where
  manifest := {
    namespace_ := "openshift-kube-controller-manager"
    image := "openshift/origin-hypershift:latest"
    imagePullPolicy := "IfNotPresent"
    configHostPath := "/etc/kubernetes/bootstrap-configs"
    secretsHostPath := "/etc/kubernetes/bootstrap-secrets"
    configFileName := "kube-controller-manager-config.yaml"
    cloudProviderHostPath := "/etc/kubernetes/cloud" }
  assetOutputDir := ""
  assetInputDir := ""
  templatesDir := "/usr/share/bootkube/manifests"
  configOverrideFile := ""
  configOutputFile := ""
  skipSchedulerBootstrapManifest := false

/-- Go's `(r *renderOpts) Validate()`: the receiver after the call and the returned error. -/
def renderOpts.Validate (r : renderOpts) : renderOpts × Option GoError :=
  if r.manifest.namespace_.length = 0 then
    (r, some (.New "missing required flag: --manifest-namespace"))
  else if r.manifest.image.length = 0 then
    (r, some (.New "missing required flag: --manifest-image"))
  else if r.manifest.imagePullPolicy.length = 0 then
    (r, some (.New "missing required flag: --manifest-image-pull-policy"))
  else if r.manifest.configHostPath.length = 0 then
    (r, some (.New "missing required flag: --manifest-config-host-path"))
  else if r.manifest.configFileName.length = 0 then
    (r, some (.New "missing required flag: --manifest-config-file-name"))
  else if r.manifest.cloudProviderHostPath.length = 0 then
    (r, some (.New "missing required flag: --manifest-cloud-provider-host-path"))
  else if r.manifest.secretsHostPath.length = 0 then
    (r, some (.New "missing required flag: --manifest-secrets-host-path"))
  else if r.assetInputDir.length = 0 then
    (r, some (.New "missing required flag: --asset-output-dir"))
  else if r.assetOutputDir.length = 0 then
    (r, some (.New "missing required flag: --asset-input-dir"))
  else if r.templatesDir.length = 0 then
    (r, some (.New "missing required flag: --templates-dir"))
  else if r.configOutputFile.length = 0 then
    (r, some (.New "missing required flag: --config-output-file"))
  else
    (r, none)

/-- Go's `(r *renderOpts) complete()`: the receiver after the call and the returned error. -/
def renderOpts.complete (r : renderOpts) : renderOpts × Option GoError :=
  if r.configOverrideFile.length = 0 then
    ({ r with configOverrideFile :=
        filepath.Join [r.assetInputDir, "kube-controller-manager-config-overrides.yaml"] },
      none)
  else
    (r, none)

/-! ## Collaborators -/

/-- The `Config` value templates are executed against. Its declaration lies outside this
file; these are the fields `Run` sets. -/
structure Config where
  Namespace : String
  Image : String
  ImagePullPolicy : String
  ConfigHostPath : String
  ConfigFileName : String
  CloudProviderHostPath : String
  SecretsHostPath : String
  PostBootstrapKubeControllerManagerConfig : Bytes
  Assets : List (String × Bytes)
  deriving DecidableEq, Repr

/-- What a file predicate sees of `os.FileInfo`. -/
structure FileInfo where
  Name : String
  IsDir : Bool
  deriving DecidableEq, Repr

/-- An element of `assets.Assets`: a rendered file and its relative name. -/
structure Asset where
  Name : String
  Data : Bytes
  deriving DecidableEq, Repr

/-- Everything `render.go` calls but does not define, over file-system states `σ` and
parsed templates `τ`. Reads leave the state alone; writes return the new state, which
may have changed even when they fail. -/
structure World (σ τ : Type) where
  /-- Go's `v311_00_assets.MustAsset`: `none` when the asset is not compiled in (a panic). -/
  MustAsset : String → Option Bytes
  /-- Go's `ioutil.ReadFile`. -/
  ReadFile : σ → String → Except GoError Bytes
  /-- Go's `ioutil.WriteFile`, with the permission bits. -/
  WriteFile : σ → String → Bytes → Nat → σ × Option GoError
  /-- Go's `template.New(name).Parse(text)`. -/
  Parse : String → String → Except GoError τ
  /-- Go's `tmpl.Execute(&buf, data)`, returning the buffer. -/
  Execute : τ → Config → Except GoError Bytes
  /-- Go's `assets.OnlyYaml`. -/
  OnlyYaml : FileInfo → Bool
  /-- Go's `assets.LoadFilesRecursively(dir, predicates...)`. -/
  LoadFilesRecursively : σ → String → List (FileInfo → Bool) →
    Except GoError (List (String × Bytes))
  /-- Go's `assets.New(dir, data, predicates...)`. -/
  New : σ → String → Config → List (FileInfo → Bool) → Except GoError (List Asset)
  /-- Go's `assets.Assets.WriteFiles(path)`. -/
  WriteFiles : σ → List Asset → String → σ × Option GoError
  /-- Go's `resourcemerge.MergeProcessConfig(nil, configYAMLs...)`. -/
  MergeProcessConfig : List Bytes → Except GoError Bytes
  /-- Go's `yaml.JSONToYAML`. -/
  JSONToYAML : Bytes → Except GoError Bytes

/-- A call to a collaborator, with its arguments. -/
inductive Event where
  | MustAsset (name : String)
  | ReadFile (filename : String)
  | Parse (name : String) (text : String)
  | Execute (name : String) (data : Config)
  | LoadFilesRecursively (dir : String) (predicates : List (FileInfo → Bool))
  | New (dir : String) (data : Config) (predicates : List (FileInfo → Bool))
  | WriteFiles (manifests : List Asset) (path : String)
  | MergeProcessConfig (configYAMLs : List Bytes)
  | JSONToYAML (j : Bytes)
  | WriteFile (filename : String) (data : Bytes) (perm : Nat)

/-- The state a run threads: the file system and the calls made so far, oldest first. -/
structure St (σ : Type) where
  fs : σ
  log : List Event

/-- Appends a call to the log. -/
def St.emit {σ : Type} (s : St σ) (e : Event) : St σ :=
  { s with log := s.log ++ [e] }

/-- The state a run starts from: a file system and an empty log. -/
def St.init {σ : Type} (fs : σ) : St σ := ⟨fs, []⟩

/-! ## The render pipeline -/

/-- Go's `bootstrapVersion`. -/
def bootstrapVersion : String := "v3.11.0"

/-- Go's `readFileTemplate`: reads `fname`, parses it as a template named `fname` and
executes it against `data`. -/
def readFileTemplate {σ τ : Type} (W : World σ τ) (fname : String) (data : Config)
    (s : St σ) : Except GoError Bytes × St σ :=
  let s := s.emit (.ReadFile fname)
  match W.ReadFile s.fs fname with
  | .error err => (.error (.Errorf "failed to load %q: %v" [fname] err), s)
  | .ok tpl =>
    let s := s.emit (.Parse fname tpl)
    match W.Parse fname tpl with
    | .error err => (.error err, s)
    | .ok tmpl =>
      let s := s.emit (.Execute fname data)
      match W.Execute tmpl data with
      | .error err => (.error err, s)
      | .ok buf => (.ok buf, s)

/-- Go's `(r *renderOpts) configFromDefaultsPlusOverride(data, tlsOverride)`. -/
def renderOpts.configFromDefaultsPlusOverride {σ τ : Type} (W : World σ τ) (r : renderOpts)
    (data : Config) (tlsOverride : String) (s : St σ) : Res Bytes × St σ :=
  let name := filepath.Join [bootstrapVersion, "kube-apiserver", "defaultconfig.yaml"]
  let s := s.emit (.MustAsset name)
  match W.MustAsset name with
  | none => (.panic name, s)
  | some defaultConfig =>
    match readFileTemplate W tlsOverride data s with
    | (.error err, s) =>
      (.err (.Errorf "failed to load config override file %q: %v" [tlsOverride] err), s)
    | (.ok bootstrapOverrides, s) =>
      let configs := [defaultConfig, bootstrapOverrides]
      let appended : Except GoError (List Bytes) × St σ :=
        if r.configOverrideFile.length > 0 then
          match readFileTemplate W r.configOverrideFile data s with
          | (.error err, s) =>
            (.error (.Errorf "failed to load config overrides at %q: %v"
              [r.configOverrideFile] err), s)
          | (.ok overrides, s) => (.ok (configs ++ [overrides]), s)
        else (.ok configs, s)
      match appended with
      | (.error err, s) => (.err err, s)
      | (.ok configs, s) =>
        let s := s.emit (.MergeProcessConfig configs)
        match W.MergeProcessConfig configs with
        | .error err => (.err (.Errorf "failed to merge configs: %v" [] err), s)
        | .ok mergedConfig =>
          let s := s.emit (.JSONToYAML mergedConfig)
          match W.JSONToYAML mergedConfig with
          | .error err => (.err err, s)
          | .ok yml => (.ok yml, s)

/-- The closure `skipSchedulerPredicate` of `Run`, over the receiver it captures. -/
def skipSchedulerPredicate (r : renderOpts) (f : FileInfo) : Bool :=
  if !r.skipSchedulerBootstrapManifest then true
  else decide (f.Name ≠ "kube-scheduler-pod.yaml")

/-- The loop of `Run` over the manifest directories: renders the templates of each
directory and writes them below the output directory, stopping at the first error. -/
def renderOpts.Run.manifests {σ τ : Type} (W : World σ τ) (r : renderOpts)
    (renderConfig : Config) : List String → St σ → Option GoError × St σ
  | [], s => (none, s)
  | manifestDir :: rest, s =>
    let s := s.emit
      (.New (filepath.Join [r.templatesDir, manifestDir]) renderConfig [W.OnlyYaml])
    match W.New s.fs (filepath.Join [r.templatesDir, manifestDir]) renderConfig
        [W.OnlyYaml] with
    | .error err => (some (.Errorf "failed rendering assets: %v" [] err), s)
    | .ok manifests =>
      let s := s.emit (.WriteFiles manifests (filepath.Join [r.assetOutputDir, manifestDir]))
      match W.WriteFiles s.fs manifests (filepath.Join [r.assetOutputDir, manifestDir]) with
      | (fs, some err) =>
        (some (.Errorf "failed writing assets to %q: %v"
          [filepath.Join [r.assetOutputDir, manifestDir]] err), { s with fs := fs })
      | (fs, none) => renderOpts.Run.manifests W r renderConfig rest { s with fs := fs }

/-- Go's `(r *renderOpts) Run()`: the outcome, the receiver after the call and the final
state. -/
def renderOpts.Run {σ τ : Type} (W : World σ τ) (r : renderOpts) (s : St σ) :
    Res Unit × renderOpts × St σ :=
  match r.complete with
  | (r, some err) => (.err err, r, s)
  | (r, none) =>
    let renderConfig : Config := {
      Namespace := r.manifest.namespace_
      Image := r.manifest.image
      ImagePullPolicy := r.manifest.imagePullPolicy
      ConfigHostPath := r.manifest.configHostPath
      ConfigFileName := r.manifest.configFileName
      CloudProviderHostPath := r.manifest.cloudProviderHostPath
      SecretsHostPath := r.manifest.secretsHostPath
      PostBootstrapKubeControllerManagerConfig := ""
      Assets := [] }
    -- create post-bootstrap configuration; `err` is assigned here and assigned again by
    -- the asset loading below before anything reads it
    match r.configFromDefaultsPlusOverride W renderConfig
        (filepath.Join [r.templatesDir, "config", "config-overrides.yaml"]) s with
    | (.panic msg, s) => (.panic msg, r, s)
    | (res, s) =>
      let renderConfig := { renderConfig with
        PostBootstrapKubeControllerManagerConfig := res.bytes }
      -- load and render templates
      let s := s.emit (.LoadFilesRecursively r.assetInputDir [skipSchedulerPredicate r])
      match W.LoadFilesRecursively s.fs r.assetInputDir [skipSchedulerPredicate r] with
      | .error err =>
        (.err (.Errorf "failed loading assets from %q: %v" [r.assetInputDir] err), r, s)
      | .ok loaded =>
        let renderConfig := { renderConfig with Assets := loaded }
        match renderOpts.Run.manifests W r renderConfig ["bootstrap-manifests", "manifests"] s
        with
        | (some err, s) => (.err err, r, s)
        | (none, s) =>
          -- create bootstrap configuration
          match r.configFromDefaultsPlusOverride W renderConfig
              (filepath.Join [r.templatesDir, "config", "bootstrap-config-overrides.yaml"]) s
          with
          | (.panic msg, s) => (.panic msg, r, s)
          | (.err err, s) =>
            (.err (.Errorf "failed to generated bootstrap config: %v" [] err), r, s)
          | (.ok mergedConfig, s) =>
            let s := s.emit (.WriteFile r.configOutputFile mergedConfig 0o644)
            match W.WriteFile s.fs r.configOutputFile mergedConfig 0o644 with
            | (fs, some err) =>
              (.err (.Errorf "failed to write merged config to %q: %v"
                [r.configOutputFile] err), r, { s with fs := fs })
            | (fs, none) => (.ok (), r, { s with fs := fs })

/-! ## A sample environment

A file-table world in which the input trees (templates, assets) are fixed and the state
is the list of files written, so that what a run writes is never read back. It is the
environment the concrete runs below are evaluated in. -/

/-- The contents of `path` in a file table. -/
def lookupFile (path : String) : List (String × Bytes) → Option Bytes
  | [] => none
  | (p, b) :: rest => if p = path then some b else lookupFile path rest

/-- The name of `path` relative to directory `dir`, when `path` lies below it. -/
def relTo (dir path : String) : Option String :=
  if (dir.data ++ ['/']).isPrefixOf path.data ∧ (dir.data ++ ['/']).length < path.data.length
  then some (String.mk (path.data.drop (dir.data.length + 1)))
  else none

/-- The last element of a path: what `os.FileInfo.Name` reports for the file. -/
def baseName (path : String) : String :=
  String.mk ((filepath.splitSep path.data).getLast?.getD [])

/-- Whether `name` ends in `suffix` (`strings.HasSuffix`). -/
def hasSuffix (name suffix : String) : Bool :=
  suffix.data.reverse.isPrefixOf name.data.reverse

/-- The files of a table below `dir` that every predicate accepts, by relative name. -/
def filesBelow (dir : String) (predicates : List (FileInfo → Bool)) :
    List (String × Bytes) → List (String × Bytes)
  | [] => []
  | (p, b) :: rest =>
    match relTo dir p with
    | none => filesBelow dir predicates rest
    | some rel =>
      if predicates.all (fun pr => pr ⟨baseName p, false⟩)
      then (rel, b) :: filesBelow dir predicates rest
      else filesBelow dir predicates rest

/-- Whether a table holds a file below `dir`, that is, whether the directory exists. -/
def dirExists (dir : String) (table : List (String × Bytes)) : Bool :=
  table.any (fun pb => (relTo dir pb.1).isSome)

/-- Writes `data` at `path` in a table of written files, replacing what was there. -/
def writeTable (table : List (String × Bytes)) (path : String) (data : Bytes) :
    List (String × Bytes) :=
  table.filter (fun pb => decide (pb.1 ≠ path)) ++ [(path, data)]

/-- The sample environment over the input table `input` and the compiled-in assets
`bindata`. Templates are texts without actions, which execute to themselves; the merge is
a stand-in that concatenates its layers and the serialiser is the identity, which is what
merging and serialising give on YAML layers with pairwise distinct top-level keys. -/
def sampleWorld (input bindata : List (String × Bytes)) :
    World (List (String × Bytes)) String where
  MustAsset := fun name => lookupFile name bindata
  ReadFile := fun _ path =>
    match lookupFile path input with
    | some b => .ok b
    | none => .error (.New "no such file or directory")
  WriteFile := fun out path data _ => (writeTable out path data, none)
  Parse := fun _ text => .ok text
  Execute := fun tmpl _ => .ok tmpl
  OnlyYaml := fun f => !f.IsDir && (hasSuffix f.Name ".yaml" || hasSuffix f.Name ".yml")
  LoadFilesRecursively := fun _ dir predicates =>
    if dirExists dir input then .ok (filesBelow dir predicates input)
    else .error (.New "no such file or directory")
  New := fun _ dir _ predicates =>
    if dirExists dir input
    then .ok ((filesBelow dir predicates input).map (fun nb => ⟨nb.1, nb.2⟩))
    else .error (.New "no such file or directory")
  WriteFiles := fun out manifests path =>
    (manifests.foldl (fun t a => writeTable t (filepath.Join [path, a.Name]) a.Data) out, none)
  MergeProcessConfig := fun configYAMLs => .ok (String.join configYAMLs)
  JSONToYAML := fun j => .ok j

/-- A read-after-write sample environment: one file table is both read and written, so a
file the run writes can be read back later in the run. Templates, merge and serialiser
are those of `sampleWorld`. -/
def sampleWorldRW (bindata : List (String × Bytes)) :
    World (List (String × Bytes)) String where
  MustAsset := fun name => lookupFile name bindata
  ReadFile := fun files path =>
    match lookupFile path files with
    | some b => .ok b
    | none => .error (.New "no such file or directory")
  WriteFile := fun files path data _ => (writeTable files path data, none)
  Parse := fun _ text => .ok text
  Execute := fun tmpl _ => .ok tmpl
  OnlyYaml := fun f => !f.IsDir && (hasSuffix f.Name ".yaml" || hasSuffix f.Name ".yml")
  LoadFilesRecursively := fun files dir predicates =>
    if dirExists dir files then .ok (filesBelow dir predicates files)
    else .error (.New "no such file or directory")
  New := fun files dir _ predicates =>
    if dirExists dir files
    then .ok ((filesBelow dir predicates files).map (fun nb => ⟨nb.1, nb.2⟩))
    else .error (.New "no such file or directory")
  WriteFiles := fun files manifests path =>
    (manifests.foldl (fun t a => writeTable t (filepath.Join [path, a.Name]) a.Data) files,
      none)
  MergeProcessConfig := fun configYAMLs => .ok (String.join configYAMLs)
  JSONToYAML := fun j => .ok j

/-- The compiled-in assets of the sample runs: the default configuration. -/
def sampleBindata : List (String × Bytes) :=
  [("v3.11.0/kube-apiserver/defaultconfig.yaml", "a: 1\n")]

/-- The input trees of the sample runs: two overlays, a user override at the conventional
path, one asset, and manifest templates among which the scheduler pod. -/
def sampleInput : List (String × Bytes) :=
  [("tpl/config/config-overrides.yaml", "b: 2\n"),
   ("tpl/config/bootstrap-config-overrides.yaml", "c: 3\n"),
   ("in/kube-controller-manager-config-overrides.yaml", "d: 4\n"),
   ("in/tls/ca.crt", "CERT\n"),
   ("tpl/bootstrap-manifests/kube-controller-manager-pod.yaml", "kind: Pod\n"),
   ("tpl/bootstrap-manifests/kube-scheduler-pod.yaml", "kind: Pod\n"),
   ("tpl/manifests/secret.yaml", "kind: Secret\n")]

/-- The options of the sample runs: the flag defaults with the required directories and
the output file set. -/
def sampleOpts : renderOpts :=
  { NewRenderCommand.defaults with
    templatesDir := "tpl", assetInputDir := "in", assetOutputDir := "out",
    configOutputFile := "out/config.yaml" }

/-- The sample options with `--skip-scheduler` set. -/
def sampleOptsSkip : renderOpts :=
  { sampleOpts with skipSchedulerBootstrapManifest := true }

/-- The sample input trees without the user override at the conventional path. -/
def sampleInputNoOverride : List (String × Bytes) :=
  sampleInput.filter
    (fun pb => decide (pb.1 ≠ "in/kube-controller-manager-config-overrides.yaml"))

/-- The sample input trees without the post-bootstrap overlay. -/
def sampleInputNoPostBootstrap : List (String × Bytes) :=
  sampleInput.filter (fun pb => decide (pb.1 ≠ "tpl/config/config-overrides.yaml"))

/-! ## The structural merge

The merge library is not part of `render.go`; its merge is modelled from the
specification (sections 4.3 and 9). -/

/-- Modelled from the spec: the structured document of section 9, a tagged variant
`Null | Bool | Number | String | Sequence<Value> | Map<String,Value>`. The merge library
that parses layers into such values is not among the sources. -/
inductive Value where
  | null
  | bool (b : Bool)
  | number (n : Int)
  | string (s : String)
  | sequence (items : List Value)
  | map (entries : List (String × Value))

/-- Whether a value is a map node. -/
def Value.isMap : Value → Bool
  | .map _ => true
  | _ => false

/-- The value of key `k` among the entries of a map node. -/
def lookupKey (k : String) : List (String × Value) → Option Value
  | [] => none
  | (k', v) :: rest => if k' = k then some v else lookupKey k rest

/-- The child of a value under key `k`: defined on map nodes that hold the key. -/
def Value.child (k : String) : Value → Option Value
  | .map entries => lookupKey k entries
  | _ => none

/-- The value at a path of keys below a value. -/
def Value.atPath : Value → List String → Option Value
  | v, [] => some v
  | v, k :: rest =>
    match v.child k with
    | some c => c.atPath rest
    | none => none

mutual
/-- Modelled from the spec: the `deepMerge(base, overlay)` of sections 4.3 and 9, absent
from the sources. Two map nodes merge to the union of their keys, recursing on the keys
both hold; in every other case, an explicit null in the overlay included, the overlay
value replaces the base value wholesale. -/
def deepMerge : Value → Value → Value
  | .map base, .map overlay =>
    .map (mergeEntries base overlay ++
      overlay.filter (fun kv => (lookupKey kv.1 base).isNone))
  | _, overlay => overlay
/-- Modelled from the spec: the entries of the base map, each merged with the overlay. -/
def mergeEntries : List (String × Value) → List (String × Value) → List (String × Value)
  | [], _ => []
  | kv :: rest, overlay => mergeEntry kv overlay :: mergeEntries rest overlay
/-- Modelled from the spec: one entry of the base map: merged with the overlay value of
its key when the overlay holds the key, kept otherwise. -/
def mergeEntry : String × Value → List (String × Value) → String × Value
  | (k, u), overlay =>
    match lookupKey k overlay with
    | some v => (k, deepMerge u v)
    | none => (k, u)
end

/-- Why a merge fails: a layer that does not parse, by index, or no layer at all. -/
inductive MergeError where
  | DocumentParseError (layer : Nat)
  | noLayers
  deriving DecidableEq, Repr

/-- Modelled from the spec: the fold of `Merge` in section 4.3 from layer `i` on: each
layer is parsed, a malformed one fails the merge with its index, and a parsed one is
merged on top of the accumulator. -/
def Merge.fold (parse : Bytes → Option Value) : Value → Nat → List Bytes →
    Except MergeError Value
  | acc, _, [] => .ok acc
  | acc, i, layer :: rest =>
    match parse layer with
    | none => .error (.DocumentParseError i)
    | some doc => Merge.fold parse (deepMerge acc doc) (i + 1) rest

/-- Modelled from the spec: the `Merge(layers ...[]byte)` of section 4.3, absent from the
sources, over the document parser `parse`: the first layer seeds the accumulator and
every later layer merges on top, in input order. -/
def Merge (parse : Bytes → Option Value) : List Bytes → Except MergeError Value
  | [] => .error .noLayers
  | layer :: rest =>
    match parse layer with
    | none => .error (.DocumentParseError 0)
    | some doc => Merge.fold parse doc 1 rest

/-- A parser for the two layers of the specification's example, `retries: [1, 2, 3]` and
`retries: [9]`. -/
def sampleParse (layer : Bytes) : Option Value :=
  if layer = "retries: [1, 2, 3]" then
    some (.map [("retries", .sequence [.number 1, .number 2, .number 3])])
  else if layer = "retries: [9]" then
    some (.map [("retries", .sequence [.number 9])])
  else none

/-! ## Reading the log -/

/-- The `Config` a call was given as template data, for the calls that take one. -/
def Event.data? : Event → Option Config
  | .Execute _ data => some data
  | .New _ data _ => some data
  | _ => none

/-- The layer sequences handed to `resourcemerge.MergeProcessConfig`, in call order. -/
def mergeCalls (log : List Event) : List (List Bytes) :=
  log.filterMap (fun e => match e with
    | .MergeProcessConfig configYAMLs => some configYAMLs
    | _ => none)

/-- The files written with `ioutil.WriteFile`, in call order. -/
def writtenFiles (log : List Event) : List (String × Bytes) :=
  log.filterMap (fun e => match e with
    | .WriteFile filename data _ => some (filename, data)
    | _ => none)

/-- The manifests written with `WriteFiles` and the directories they were written to, in
call order. -/
def writeFilesCalls (log : List Event) : List (List Asset × String) :=
  log.filterMap (fun e => match e with
    | .WriteFiles manifests path => some (manifests, path)
    | _ => none)

/-- The template directories rendered with `assets.New` and the data they were rendered
against, in call order. -/
def newCalls (log : List Event) : List (String × Config) :=
  log.filterMap (fun e => match e with
    | .New dir data _ => some (dir, data)
    | _ => none)

/-- The calls `readFileTemplate` makes when given `data`: a file read, template parsing,
and execution against `data`. -/
def readEvent (data : Config) : Event → Prop
  | .ReadFile _ => True
  | .Parse _ _ => True
  | .Execute _ d => d = data
  | _ => False

/-- The calls `configFromDefaultsPlusOverride` makes when given `data`: asset lookup,
file reads, template parsing and execution against `data`, merge and serialisation. -/
def configEvent (data : Config) : Event → Prop
  | .MustAsset _ => True
  | .ReadFile _ => True
  | .Parse _ _ => True
  | .Execute _ d => d = data
  | .MergeProcessConfig _ => True
  | .JSONToYAML _ => True
  | _ => False

/-- The calls the manifest loop of `Run` makes: `assets.New` against `data` with the
YAML predicate alone, and `WriteFiles`. -/
def manifestEvent {σ τ : Type} (W : World σ τ) (data : Config) : Event → Prop
  | .New _ d predicates => d = data ∧ predicates = [W.OnlyYaml]
  | .WriteFiles _ _ => True
  | _ => False

/-- The templates executed and the data each was executed against, in call order. -/
def executeCalls (log : List Event) : List (String × Config) :=
  log.filterMap (fun e => match e with
    | .Execute name data => some (name, data)
    | _ => none)

/-- Whether a call is a `resourcemerge.MergeProcessConfig`. -/
def Event.isMerge : Event → Bool
  | .MergeProcessConfig _ => true
  | _ => false

/-- Whether a call is an `ioutil.WriteFile`. -/
def Event.isWriteFile : Event → Bool
  | .WriteFile _ _ _ => true
  | _ => false

/-- The seven render parameters of a `Config` are those of the manifest options. -/
def Config.hasParameters (c : Config) (m : manifestOpts) : Prop :=
  c.Namespace = m.namespace_ ∧ c.Image = m.image ∧ c.ImagePullPolicy = m.imagePullPolicy ∧
  c.ConfigHostPath = m.configHostPath ∧ c.ConfigFileName = m.configFileName ∧
  c.CloudProviderHostPath = m.cloudProviderHostPath ∧ c.SecretsHostPath = m.secretsHostPath

/-- The calls `Run` makes for the receiver `r`: template data always carries the
parameters of `r.manifest`, manifests are rendered with the YAML predicate alone, assets
are loaded from `assetInputDir` with the scheduler predicate alone, and the only file
written directly is `configOutputFile`. -/
def runEvent {σ τ : Type} (W : World σ τ) (r : renderOpts) : Event → Prop
  | .Execute _ d => d.hasParameters r.manifest
  | .New _ d predicates => d.hasParameters r.manifest ∧ predicates = [W.OnlyYaml]
  | .LoadFilesRecursively dir predicates =>
    dir = r.assetInputDir ∧ predicates = [skipSchedulerPredicate r]
  | .WriteFile filename _ perm => filename = r.configOutputFile ∧ perm = 0o644
  | _ => True

/-- The `Config` value `Run` builds from the manifest options before any call. -/
def renderOpts.renderConfig (r : renderOpts) : Config where
  Namespace := r.manifest.namespace_
  Image := r.manifest.image
  ImagePullPolicy := r.manifest.imagePullPolicy
  ConfigHostPath := r.manifest.configHostPath
  ConfigFileName := r.manifest.configFileName
  CloudProviderHostPath := r.manifest.cloudProviderHostPath
  SecretsHostPath := r.manifest.secretsHostPath
  PostBootstrapKubeControllerManagerConfig := ""
  Assets := []

/-- The log of `s'` is the log of `s` followed by calls that all satisfy `P`. -/
def St.Extends {σ : Type} (P : Event → Prop) (s s' : St σ) : Prop :=
  ∃ evs, s'.log = s.log ++ evs ∧ ∀ e ∈ evs, P e

/-- The file system after one call: `WriteFiles` and `WriteFile` change it as the
environment says, every other call leaves it alone. -/
def Event.write {σ τ : Type} (W : World σ τ) (fs : σ) : Event → σ
  | .WriteFiles manifests path => (W.WriteFiles fs manifests path).1
  | .WriteFile filename data perm => (W.WriteFile fs filename data perm).1
  | _ => fs

/-- The file system a run is in after the calls of `log`, started from `fs`. -/
def replay {σ τ : Type} (W : World σ τ) (fs : σ) (log : List Event) : σ :=
  log.foldl (Event.write W) fs

/-- The log of `s'` is the log of `s` followed by calls that all satisfy `P`, each taken
with the log before it. -/
def St.ExtendsAt {σ : Type} (P : List Event → Event → Prop) (s s' : St σ) : Prop :=
  ∃ evs, s'.log = s.log ++ evs ∧ ∀ pre e post, evs = pre ++ e :: post → P (s.log ++ pre) e

/-- What `Run` guarantees of a call given the log before it, for the completed receiver
`r` and the initial file system `fs`: a merge is handed three layers and comes after the
user override was read in the file system of that moment, and a file is written directly
only after a merge. -/
def runStep {σ τ : Type} (W : World σ τ) (r : renderOpts) (fs : σ) (pre : List Event) :
    Event → Prop
  | .MergeProcessConfig layers =>
    layers.length = 3 ∧ ∃ tpl, W.ReadFile (replay W fs pre) r.configOverrideFile = .ok tpl
  | .WriteFile _ _ _ => mergeCalls pre ≠ []
  | _ => True

/-! ## Lemmas -/

theorem length_eq_zero_iff (s : String) : s.length = 0 ↔ s = "" := by
  cases s with
  | mk data => simp [String.length, String.ext_iff]

theorem data_eq_nil_iff (s : String) : s.data = [] ↔ s = "" := by
  cases s with
  | mk data => simp [String.ext_iff]

theorem filepath.dot_or_mk_ne_empty (res : List Char) :
    (if res = [] then "." else String.mk res) ≠ "" := by
  split
  · decide
  · rename_i h
    intro hc
    exact h (by simpa [String.ext_iff] using hc)

theorem filepath.Clean_ne_empty (path : String) : filepath.Clean path ≠ "" := by
  unfold filepath.Clean
  split
  · decide
  · exact filepath.dot_or_mk_ne_empty _

theorem filepath.Join_ne_empty (elems : List String) (h : ∃ e ∈ elems, e ≠ "") :
    filepath.Join elems ≠ "" := by
  induction elems with
  | nil => simp at h
  | cons e rest ih =>
    unfold filepath.Join
    split
    · rename_i he
      apply ih
      obtain ⟨x, hx, hne⟩ := h
      rcases List.mem_cons.mp hx with rfl | hx
      · exact absurd ((data_eq_nil_iff _).mp he) hne
      · exact ⟨x, hx, hne⟩
    · exact filepath.Clean_ne_empty _

/-! ## Validation and completion -/

theorem renderOpts.Validate_snd_none_iff (r : renderOpts) : r.Validate.2 = none ↔
      (r.manifest.namespace_.length ≠ 0 ∧ r.manifest.image.length ≠ 0 ∧
       r.manifest.imagePullPolicy.length ≠ 0 ∧ r.manifest.configHostPath.length ≠ 0 ∧
       r.manifest.configFileName.length ≠ 0 ∧ r.manifest.cloudProviderHostPath.length ≠ 0 ∧
       r.manifest.secretsHostPath.length ≠ 0 ∧ r.assetInputDir.length ≠ 0 ∧ r.assetOutputDir.length ≠ 0 ∧
       r.templatesDir.length ≠ 0 ∧ r.configOutputFile.length ≠ 0) := by
  unfold renderOpts.Validate
  by_cases h1 : r.manifest.namespace_.length = 0
  · rw [if_pos h1]; simp [h1]
  rw [if_neg h1]
  by_cases h2 : r.manifest.image.length = 0
  · rw [if_pos h2]; simp [h2]
  rw [if_neg h2]
  by_cases h3 : r.manifest.imagePullPolicy.length = 0
  · rw [if_pos h3]; simp [h3]
  rw [if_neg h3]
  by_cases h4 : r.manifest.configHostPath.length = 0
  · rw [if_pos h4]; simp [h4]
  rw [if_neg h4]
  by_cases h5 : r.manifest.configFileName.length = 0
  · rw [if_pos h5]; simp [h5]
  rw [if_neg h5]
  by_cases h6 : r.manifest.cloudProviderHostPath.length = 0
  · rw [if_pos h6]; simp [h6]
  rw [if_neg h6]
  by_cases h7 : r.manifest.secretsHostPath.length = 0
  · rw [if_pos h7]; simp [h7]
  rw [if_neg h7]
  by_cases h8 : r.assetInputDir.length = 0
  · rw [if_pos h8]; simp [h8]
  rw [if_neg h8]
  by_cases h9 : r.assetOutputDir.length = 0
  · rw [if_pos h9]; simp [h9]
  rw [if_neg h9]
  by_cases h10 : r.templatesDir.length = 0
  · rw [if_pos h10]; simp [h10]
  rw [if_neg h10]
  by_cases h11 : r.configOutputFile.length = 0
  · rw [if_pos h11]; simp [h11]
  rw [if_neg h11]
  simp only [true_iff]
  exact ⟨h1, h2, h3, h4, h5, h6, h7, h8, h9, h10, h11⟩

theorem renderOpts.Validate_fst (r : renderOpts) : r.Validate.1 = r := by
  unfold renderOpts.Validate
  simp only [apply_ite Prod.fst, ite_self]

/-- C4: `Validate` returns nil exactly when the eleven required options are all
non-empty; its result does not depend on `configOverrideFile` or on
`skipSchedulerBootstrapManifest`, and it leaves the receiver unchanged. -/
theorem Validate_nil_iff_required_nonempty (r : renderOpts) :
    (r.Validate.2 = none ↔
      (r.manifest.namespace_ ≠ "" ∧ r.manifest.image ≠ "" ∧
       r.manifest.imagePullPolicy ≠ "" ∧ r.manifest.configHostPath ≠ "" ∧
       r.manifest.configFileName ≠ "" ∧ r.manifest.cloudProviderHostPath ≠ "" ∧
       r.manifest.secretsHostPath ≠ "" ∧ r.assetInputDir ≠ "" ∧ r.assetOutputDir ≠ "" ∧
       r.templatesDir ≠ "" ∧ r.configOutputFile ≠ "")) ∧
    r.Validate.1 = r ∧
    ∀ (c : String) (b : Bool),
      ({ r with configOverrideFile := c, skipSchedulerBootstrapManifest := b }
        : renderOpts).Validate.2 = r.Validate.2 := by
  refine ⟨?_, renderOpts.Validate_fst r, ?_⟩
  · rw [renderOpts.Validate_snd_none_iff]
    simp only [ne_eq, length_eq_zero_iff]
  · intro c b
    unfold renderOpts.Validate
    simp only [apply_ite Prod.snd]

/-- C5: with the required directories empty one at a time, the flag `Validate` names is
not the flag `NewRenderCommand` registers for the empty option: an empty `assetInputDir`
is reported as `--asset-output-dir`, an empty `assetOutputDir` as `--asset-input-dir`, and
an empty `templatesDir` as `--templates-dir` although the flag is `--templates-input-dir`. -/
theorem Validate_names_another_flag :
    ({ sampleOpts with assetInputDir := "" } : renderOpts).Validate.2
        = some (.New "missing required flag: --asset-output-dir") ∧
      NewRenderCommand.flagName .assetInputDir = "asset-input-dir" ∧
    ({ sampleOpts with assetOutputDir := "" } : renderOpts).Validate.2
        = some (.New "missing required flag: --asset-input-dir") ∧
      NewRenderCommand.flagName .assetOutputDir = "asset-output-dir" ∧
    ({ sampleOpts with templatesDir := "" } : renderOpts).Validate.2
        = some (.New "missing required flag: --templates-dir") ∧
      NewRenderCommand.flagName .templatesDir = "templates-input-dir" := by
  decide

/-- C9: `complete` returns nil; an empty `configOverrideFile` becomes
`filepath.Join(assetInputDir, "kube-controller-manager-config-overrides.yaml")` and a
non-empty one is kept; no other field changes; and completing twice is completing once. -/
theorem complete_defaults_only_override (r : renderOpts) :
    r.complete.2 = none ∧
    r.complete.1.configOverrideFile =
      (if r.configOverrideFile = ""
       then filepath.Join [r.assetInputDir, "kube-controller-manager-config-overrides.yaml"]
       else r.configOverrideFile) ∧
    r.complete.1 = { r with configOverrideFile := r.complete.1.configOverrideFile } ∧
    r.complete.1.complete = r.complete := by
  have hj : filepath.Join [r.assetInputDir, "kube-controller-manager-config-overrides.yaml"]
      ≠ "" :=
    filepath.Join_ne_empty _ ⟨"kube-controller-manager-config-overrides.yaml",
      by simp, by decide⟩
  by_cases h : r.configOverrideFile = ""
  · simp [renderOpts.complete, length_eq_zero_iff, h, hj]
  · simp [renderOpts.complete, length_eq_zero_iff, h]

/-! ## The structural merge: later layers replace -/

theorem mergeEntry_fst (kv : String × Value) (overlay : List (String × Value)) :
    (mergeEntry kv overlay).1 = kv.1 := by
  obtain ⟨k, u⟩ := kv
  unfold mergeEntry
  split <;> rfl

theorem lookupKey_mergeEntries (k : String) (base overlay extra : List (String × Value))
    (u v : Value) (hu : lookupKey k base = some u) (hv : lookupKey k overlay = some v) :
    lookupKey k (mergeEntries base overlay ++ extra) = some (deepMerge u v) := by
  induction base with
  | nil => simp [lookupKey] at hu
  | cons kv rest ih =>
    obtain ⟨k', u'⟩ := kv
    unfold mergeEntries
    simp only [lookupKey] at hu
    by_cases hk : k' = k
    · subst hk
      simp only [if_true, Option.some.injEq] at hu
      subst hu
      have hm : mergeEntry (k', u') overlay = (k', deepMerge u' v) := by
        unfold mergeEntry
        simp only [hv]
      rw [hm]
      simp [lookupKey]
    · simp only [hk, if_false] at hu
      have hf := mergeEntry_fst (k', u') overlay
      generalize mergeEntry (k', u') overlay = m at hf
      obtain ⟨mk, mv⟩ := m
      simp only at hf
      subst hf
      simp only [List.cons_append, lookupKey, hk, if_false]
      exact ih hu

theorem deepMerge_atPath (p : List String) :
    ∀ (base overlay u v : Value), base.atPath p = some u → overlay.atPath p = some v →
      ¬ (u.isMap = true ∧ v.isMap = true) →
      (deepMerge base overlay).atPath p = some v := by
  induction p with
  | nil =>
    intro base overlay u v hu hv hn
    simp only [Value.atPath, Option.some.injEq] at hu hv
    subst hu; subst hv
    cases base <;> cases overlay <;> simp_all [deepMerge, Value.atPath, Value.isMap]
  | cons k rest ih =>
    intro base overlay u v hu hv hn
    cases base <;> simp [Value.atPath, Value.child] at hu
    cases overlay <;> simp [Value.atPath, Value.child] at hv
    rename_i be oe
    cases hb : lookupKey k be with
    | none => simp [hb] at hu
    | some bu =>
      cases ho : lookupKey k oe with
      | none => simp [ho] at hv
      | some ov =>
        simp only [hb] at hu
        simp only [ho] at hv
        unfold deepMerge
        simp only [Value.atPath, Value.child, lookupKey_mergeEntries k be oe _ bu ov hb ho]
        exact ih bu ov u v hu hv hn

/-- C10: for two well-formed layers and a path at which both hold a value, the two values
not both maps (a scalar, a sequence, or a map meeting a non-map), the merge succeeds and the
merged document holds the later layer's value at that path, unchanged: sequences are
neither concatenated nor united. -/
theorem Merge_replaces (parse : Bytes → Option Value) (earlier later : Bytes)
    (base overlay : Value) (hb : parse earlier = some base) (ho : parse later = some overlay)
    (p : List String) (u v : Value)
    (hu : base.atPath p = some u) (hv : overlay.atPath p = some v)
    (hn : ¬ (u.isMap = true ∧ v.isMap = true)) :
    Merge parse [earlier, later] = .ok (deepMerge base overlay) ∧
      (deepMerge base overlay).atPath p = some v := by
  refine ⟨?_, deepMerge_atPath p base overlay u v hu hv hn⟩
  simp [Merge, Merge.fold, hb, ho]

/-- The example of the specification: `retries: [1, 2, 3]` under `retries: [9]` merges to
`retries: [9]`. -/
theorem Merge_replaces_witness :
    sampleParse "retries: [1, 2, 3]"
        = some (.map [("retries", .sequence [.number 1, .number 2, .number 3])]) ∧
    Merge sampleParse ["retries: [1, 2, 3]", "retries: [9]"]
        = .ok (.map [("retries", .sequence [.number 9])]) ∧
      (Value.map [("retries", .sequence [.number 9])]).atPath ["retries"]
        = some (.sequence [.number 9]) :=
  ⟨rfl, Merge_replaces sampleParse "retries: [1, 2, 3]" "retries: [9]"
    (.map [("retries", .sequence [.number 1, .number 2, .number 3])])
    (.map [("retries", .sequence [.number 9])]) (by rfl) (by rfl)
    ["retries"] (.sequence [.number 1, .number 2, .number 3]) (.sequence [.number 9])
    (by rfl) (by rfl) (by decide)⟩
/-! ## The pipeline -/

section pipeline
variable {σ τ : Type} (W : World σ τ)

theorem St.Extends.refl (P : Event → Prop) (s : St σ) : St.Extends P s s :=
  ⟨[], by simp, by simp⟩

theorem St.Extends.emit {P : Event → Prop} {s s' : St σ} (h : St.Extends P s s')
    (e : Event) (he : P e) : St.Extends P s (s'.emit e) := by
  obtain ⟨evs, hlog, hall⟩ := h
  refine ⟨evs ++ [e], by simp [St.emit, hlog], ?_⟩
  intro x hx
  rcases List.mem_append.mp hx with hx | hx
  · exact hall x hx
  · simp only [List.mem_singleton] at hx
    exact hx ▸ he

theorem St.Extends.trans {P : Event → Prop} {s s' s'' : St σ} (h : St.Extends P s s')
    (h' : St.Extends P s' s'') : St.Extends P s s'' := by
  obtain ⟨evs, hlog, hall⟩ := h
  obtain ⟨evs', hlog', hall'⟩ := h'
  refine ⟨evs ++ evs', by simp [hlog', hlog], ?_⟩
  intro x hx
  rcases List.mem_append.mp hx with hx | hx
  · exact hall x hx
  · exact hall' x hx

theorem St.Extends.mono {P Q : Event → Prop} {s s' : St σ} (h : St.Extends P s s')
    (hpq : ∀ e, P e → Q e) : St.Extends Q s s' := by
  obtain ⟨evs, hlog, hall⟩ := h
  exact ⟨evs, hlog, fun e he => hpq e (hall e he)⟩

theorem St.Extends.setFs {P : Event → Prop} {s s' : St σ} (h : St.Extends P s s')
    (fs : σ) : St.Extends P s { s' with fs := fs } := h

theorem St.Extends.filterMap {α : Type} {P : Event → Prop} {s s' : St σ}
    (h : St.Extends P s s') (g : Event → Option α) (hg : ∀ e, P e → g e = none) :
    s'.log.filterMap g = s.log.filterMap g := by
  obtain ⟨evs, hlog, hall⟩ := h
  rw [hlog, List.filterMap_append]
  have : evs.filterMap g = [] := by
    rw [List.filterMap_eq_nil_iff]
    exact fun e he => hg e (hall e he)
  simp [this]

theorem St.ExtendsAt.reflAt (P : List Event → Event → Prop) (s : St σ) : St.ExtendsAt P s s :=
  ⟨[], by simp, fun pre e post h => by simp at h⟩

theorem St.ExtendsAt.emitAt {P : List Event → Event → Prop} {s s' : St σ}
    (h : St.ExtendsAt P s s') (e : Event) (he : P s'.log e) :
    St.ExtendsAt P s (s'.emit e) := by
  obtain ⟨evs, hlog, hall⟩ := h
  refine ⟨evs ++ [e], by simp [St.emit, hlog], ?_⟩
  intro pre x post hsplit
  rcases List.eq_nil_or_concat post with hp | ⟨post', y, hp⟩
  · subst hp
    have := List.append_inj' hsplit rfl
    obtain ⟨h1, h2⟩ := this
    simp only [List.cons.injEq, and_true] at h2
    subst h1; subst h2
    rw [← hlog]
    exact he
  · subst hp
    have hsplit' : evs ++ [e] = (pre ++ x :: post') ++ [y] := by
      rw [hsplit]; simp
    have := List.append_inj' hsplit' rfl
    exact hall pre x post' this.1

theorem St.ExtendsAt.transAt {P : List Event → Event → Prop} {s s' s'' : St σ}
    (h : St.ExtendsAt P s s') (h' : St.ExtendsAt P s' s'') : St.ExtendsAt P s s'' := by
  obtain ⟨evs, hlog, hall⟩ := h
  obtain ⟨evs', hlog', hall'⟩ := h'
  refine ⟨evs ++ evs', by simp [hlog', hlog], ?_⟩
  intro pre x post hsplit
  rcases List.append_eq_append_iff.mp hsplit with ⟨a', h1, h2⟩ | ⟨c', h1, h2⟩
  · have := hall' a' x post h2
    rw [hlog, List.append_assoc, ← h1] at this
    exact this
  · cases c' with
    | nil =>
      simp only [List.append_nil, List.nil_append] at h1 h2
      have := hall' [] x post h2.symm
      rw [hlog, List.append_nil, h1] at this
      exact this
    | cons c cs =>
      simp only [List.cons_append, List.cons.injEq] at h2
      obtain ⟨hc, hpost⟩ := h2
      subst hc
      exact hall pre x cs h1

theorem St.ExtendsAt.monoAt {P Q : List Event → Event → Prop} {s s' : St σ}
    (h : St.ExtendsAt P s s') (hpq : ∀ l e, P l e → Q l e) : St.ExtendsAt Q s s' := by
  obtain ⟨evs, hlog, hall⟩ := h
  exact ⟨evs, hlog, fun pre e post hs => hpq _ e (hall pre e post hs)⟩

theorem St.ExtendsAt.setFsAt {P : List Event → Event → Prop} {s s' : St σ}
    (h : St.ExtendsAt P s s') (fs : σ) : St.ExtendsAt P s { s' with fs := fs } := h

theorem St.Extends.at {P : Event → Prop} {s s' : St σ} (h : St.Extends P s s') :
    St.ExtendsAt (fun l e => P e ∧ ∃ mid, l = s.log ++ mid ∧ ∀ x ∈ mid, P x) s s' := by
  obtain ⟨evs, hlog, hall⟩ := h
  refine ⟨evs, hlog, ?_⟩
  intro pre e post hsplit
  refine ⟨hall e (by rw [hsplit]; simp), pre, rfl, ?_⟩
  intro x hx
  exact hall x (by rw [hsplit]; simp [hx])

theorem St.Extends.and {P Q : Event → Prop} {s s' : St σ} (h : St.Extends P s s')
    (h' : St.Extends Q s s') : St.Extends (fun e => P e ∧ Q e) s s' := by
  obtain ⟨evs, hlog, hall⟩ := h
  obtain ⟨evs', hlog', hall'⟩ := h'
  have : evs' = evs := List.append_cancel_left (hlog'.symm.trans hlog)
  subst this
  exact ⟨evs', hlog, fun e he => ⟨hall e he, hall' e he⟩⟩

theorem replay_append (fs : σ) (l l' : List Event) :
    replay W fs (l ++ l') = replay W (replay W fs l) l' :=
  List.foldl_append _ _ _ _

theorem replay_of_no_write (fs : σ) (l : List Event)
    (h : ∀ e ∈ l, ∀ fs', Event.write W fs' e = fs') : replay W fs l = fs := by
  induction l generalizing fs with
  | nil => rfl
  | cons e rest ih =>
    simp only [replay, List.foldl_cons]
    rw [h e (by simp)]
    exact ih fs (fun x hx => h x (by simp [hx]))

theorem configEvent_write (data : Config) (e : Event) (h : configEvent data e) (fs : σ) :
    Event.write W fs e = fs := by
  cases e <;> simp_all [configEvent, Event.write]

theorem readFileTemplate_fs (fname : String) (data : Config) (s : St σ) :
    (readFileTemplate W fname data s).2.fs = s.fs := by
  unfold readFileTemplate
  simp only [St.emit]
  split
  · rfl
  · split
    · rfl
    · split <;> rfl

theorem readFileTemplate_fst (fname : String) (data : Config) (s s' : St σ)
    (h : s.fs = s'.fs) :
    (readFileTemplate W fname data s).1 = (readFileTemplate W fname data s').1 := by
  unfold readFileTemplate
  simp only [St.emit, h]
  split
  · rfl
  · split
    · rfl
    · split <;> rfl

theorem readFileTemplate_log (fname : String) (data : Config) (s : St σ) :
    St.Extends (readEvent data) s (readFileTemplate W fname data s).2 := by
  have h1 := (St.Extends.refl (readEvent data) s).emit (.ReadFile fname) trivial
  unfold readFileTemplate
  simp only
  split
  · exact h1
  · rename_i tpl _
    have h2 := h1.emit (.Parse fname tpl) trivial
    split
    · exact h2
    · have h3 := h2.emit (.Execute fname data) rfl
      split <;> exact h3

theorem readFileTemplate_ok_read (fname : String) (data : Config) (s : St σ) (b : Bytes)
    (h : (readFileTemplate W fname data s).1 = .ok b) :
    ∃ tpl, W.ReadFile s.fs fname = .ok tpl := by
  unfold readFileTemplate at h
  simp only [St.emit] at h
  split at h
  · simp at h
  · rename_i tpl htpl
    exact ⟨tpl, htpl⟩

theorem readFileTemplate_eq (fname : String) (data : Config) (s : St σ) :
    ∃ s', readFileTemplate W fname data s
        = ((readFileTemplate W fname data (St.init s.fs)).1, s') ∧
      s'.fs = s.fs ∧ St.Extends (readEvent data) s s' := by
  refine ⟨(readFileTemplate W fname data s).2, ?_, readFileTemplate_fs W fname data s,
    readFileTemplate_log W fname data s⟩
  rw [← readFileTemplate_fst W fname data s (St.init s.fs) rfl]

theorem mergeCalls_of_extends {data : Config} {s s' : St σ}
    (h : St.Extends (readEvent data) s s') : mergeCalls s'.log = mergeCalls s.log := by
  unfold mergeCalls
  apply h.filterMap
  intro e he
  cases e <;> simp_all [readEvent]

/-- C1: when the default asset and the files load, `configFromDefaultsPlusOverride` calls
`resourcemerge.MergeProcessConfig` once, on exactly `[default, built-in overlay]` when
`configOverrideFile` is empty and on `[default, built-in overlay, user override]` otherwise,
and what it returns is the serialised result of that merge. -/
theorem configFromDefaultsPlusOverride_layers (r : renderOpts) (data : Config)
    (tlsOverride : String) (s : St σ) (d b o : Bytes)
    (hd : W.MustAsset (filepath.Join [bootstrapVersion, "kube-apiserver", "defaultconfig.yaml"])
      = some d)
    (hb : (readFileTemplate W tlsOverride data s).1 = .ok b)
    (ho : r.configOverrideFile ≠ "" →
      (readFileTemplate W r.configOverrideFile data s).1 = .ok o) :
    mergeCalls (r.configFromDefaultsPlusOverride W data tlsOverride s).2.log
      = mergeCalls s.log ++ [if r.configOverrideFile = "" then [d, b] else [d, b, o]] ∧
    (r.configFromDefaultsPlusOverride W data tlsOverride s).1
      = (match W.MergeProcessConfig
            (if r.configOverrideFile = "" then [d, b] else [d, b, o]) with
         | .error err => .err (.Errorf "failed to merge configs: %v" [] err)
         | .ok mergedConfig =>
           match W.JSONToYAML mergedConfig with
           | .error err => .err err
           | .ok yml => .ok yml) := by
  unfold renderOpts.configFromDefaultsPlusOverride
  simp only [hd]
  generalize hs0 : s.emit (.MustAsset
    (filepath.Join [bootstrapVersion, "kube-apiserver", "defaultconfig.yaml"])) = s0
  have hfs0 : s0.fs = s.fs := by rw [← hs0]; rfl
  have hm0 : mergeCalls s0.log = mergeCalls s.log := by
    rw [← hs0]; simp [St.emit, mergeCalls]
  obtain ⟨s1, h1, hfs1, hx1⟩ := readFileTemplate_eq W tlsOverride data s0
  rw [hfs0, ← readFileTemplate_fst W tlsOverride data s (St.init s.fs) rfl, hb] at h1
  rw [h1]
  simp only
  have hm1 := mergeCalls_of_extends hx1
  have key : ∀ (s' : St σ) (e : Event),
      mergeCalls (s'.emit e).log = mergeCalls s'.log ++ mergeCalls [e] := by
    intro s' e
    simp [St.emit, mergeCalls]
  by_cases hc : r.configOverrideFile = ""
  · have hlen : ¬ r.configOverrideFile.length > 0 := by
      simp [(length_eq_zero_iff _).mpr hc]
    simp only [hlen, if_false]
    simp only [hc, if_true]
    constructor
    · split
      · (simp only [key, hm1, hm0]; simp [mergeCalls])
      · split <;> (simp only [key, hm1, hm0]; simp [mergeCalls])
    · split
      · rfl
      · split <;> rfl
  · have hlen : r.configOverrideFile.length > 0 := by
      rcases Nat.eq_zero_or_pos r.configOverrideFile.length with h0 | h0
      · exact absurd ((length_eq_zero_iff _).mp h0) hc
      · exact h0
    obtain ⟨s2, h2, hfs2, hx2⟩ := readFileTemplate_eq W r.configOverrideFile data s1
    rw [hfs1, hfs0, ← readFileTemplate_fst W r.configOverrideFile data s (St.init s.fs) rfl,
      ho hc] at h2
    have hm2 := mergeCalls_of_extends hx2
    simp only [hlen, if_true, h2, List.cons_append, List.nil_append]
    simp only [hc, if_false]
    constructor
    · split
      · (simp only [key, hm2, hm1, hm0]; simp [mergeCalls])
      · split <;> (simp only [key, hm2, hm1, hm0]; simp [mergeCalls])
    · split
      · rfl
      · split <;> rfl
theorem readEvent_configEvent_merge (data : Config) (M : Prop) (e : Event)
    (h : readEvent data e) : configEvent data e ∧ (e.isMerge = true → M) := by
  cases e <;> simp_all [readEvent, configEvent, Event.isMerge]

theorem configFromDefaultsPlusOverride_spec (r : renderOpts) (data : Config)
    (tlsOverride : String) (s : St σ) :
    (r.configFromDefaultsPlusOverride W data tlsOverride s).2.fs = s.fs ∧
    St.Extends
      (fun e => configEvent data e ∧ (e.isMerge = true → r.configOverrideFile ≠ "" →
        ∃ tpl, W.ReadFile s.fs r.configOverrideFile = .ok tpl))
      s (r.configFromDefaultsPlusOverride W data tlsOverride s).2 ∧
    ∀ yml, (r.configFromDefaultsPlusOverride W data tlsOverride s).1 = .ok yml →
      r.configOverrideFile ≠ "" → ∃ tpl, W.ReadFile s.fs r.configOverrideFile = .ok tpl := by
  unfold renderOpts.configFromDefaultsPlusOverride
  simp only
  generalize hM : (r.configOverrideFile ≠ "" →
        ∃ tpl, W.ReadFile s.fs r.configOverrideFile = .ok tpl) = M
  generalize hs0 : s.emit (.MustAsset
    (filepath.Join [bootstrapVersion, "kube-apiserver", "defaultconfig.yaml"])) = s0
  have hfs0 : s0.fs = s.fs := by rw [← hs0]; rfl
  have hx0 : St.Extends (fun e => configEvent data e ∧ (e.isMerge = true → M)) s s0 := by
    rw [← hs0]
    exact (St.Extends.refl _ s).emit _ ⟨trivial, by simp [Event.isMerge]⟩
  split
  · exact ⟨hfs0, hx0, by simp⟩
  · obtain ⟨s1, h1, hfs1, hx1⟩ := readFileTemplate_eq W tlsOverride data s0
    have hx1 := hx0.trans (hx1.mono (readEvent_configEvent_merge data M))
    rw [h1]
    cases (readFileTemplate W tlsOverride data (St.init s0.fs)).1 with
    | error err => exact ⟨hfs1.trans hfs0, hx1, by simp⟩
    | ok b =>
      simp only
      by_cases hc : r.configOverrideFile.length > 0
      · simp only [hc, if_true]
        obtain ⟨s2, h2, hfs2, hx2⟩ := readFileTemplate_eq W r.configOverrideFile data s1
        have hx2 := hx1.trans (hx2.mono (readEvent_configEvent_merge data M))
        have hfs2 : s2.fs = s.fs := hfs2.trans (hfs1.trans hfs0)
        rw [h2]
        cases hres : (readFileTemplate W r.configOverrideFile data (St.init s1.fs)).1 with
        | error err => exact ⟨hfs2, hx2, by simp⟩
        | ok o =>
          have hread : ∃ tpl, W.ReadFile s.fs r.configOverrideFile = .ok tpl := by
            have := readFileTemplate_ok_read W r.configOverrideFile data (St.init s1.fs) o hres
            rw [← hfs0, ← hfs1]
            exact this
          have hm : M := by rw [← hM]; exact fun _ => hread
          simp only
          split
          · exact ⟨hfs2, hx2.emit (.MergeProcessConfig _) ⟨trivial, fun _ => hm⟩, by simp⟩
          · split
            · exact ⟨hfs2, (hx2.emit (.MergeProcessConfig _) ⟨trivial, fun _ => hm⟩).emit
                (.JSONToYAML _) ⟨trivial, by simp [Event.isMerge]⟩, by simp⟩
            · exact ⟨hfs2, (hx2.emit (.MergeProcessConfig _) ⟨trivial, fun _ => hm⟩).emit
                (.JSONToYAML _) ⟨trivial, by simp [Event.isMerge]⟩, fun _ _ => hm⟩
      · simp only [hc, if_false]
        have hemp : r.configOverrideFile = "" := by
          apply (length_eq_zero_iff _).mp
          omega
        have hm : M := by rw [← hM]; exact fun h => absurd hemp h
        have hfs1' : s1.fs = s.fs := hfs1.trans hfs0
        split
        · exact ⟨hfs1', hx1.emit (.MergeProcessConfig _) ⟨trivial, fun _ => hm⟩, by simp⟩
        · split
          · exact ⟨hfs1', (hx1.emit (.MergeProcessConfig _) ⟨trivial, fun _ => hm⟩).emit
              (.JSONToYAML _) ⟨trivial, by simp [Event.isMerge]⟩, by simp⟩
          · exact ⟨hfs1', (hx1.emit (.MergeProcessConfig _) ⟨trivial, fun _ => hm⟩).emit
              (.JSONToYAML _) ⟨trivial, by simp [Event.isMerge]⟩, fun _ _ => hm⟩

theorem configFromDefaultsPlusOverride_layers_three (r : renderOpts) (data : Config)
    (tlsOverride : String) (s : St σ) (hne : r.configOverrideFile ≠ "") :
    St.Extends (fun e => ∀ layers, e = .MergeProcessConfig layers → layers.length = 3)
      s (r.configFromDefaultsPlusOverride W data tlsOverride s).2 := by
  have hlen : r.configOverrideFile.length > 0 := by
    rcases Nat.eq_zero_or_pos r.configOverrideFile.length with h0 | h0
    · exact absurd ((length_eq_zero_iff _).mp h0) hne
    · exact h0
  have hread : ∀ e, readEvent data e →
      ∀ layers, e = .MergeProcessConfig layers → layers.length = 3 := by
    intro e he layers hl
    subst hl
    simp [readEvent] at he
  unfold renderOpts.configFromDefaultsPlusOverride
  simp only
  generalize hs0 : s.emit (.MustAsset
    (filepath.Join [bootstrapVersion, "kube-apiserver", "defaultconfig.yaml"])) = s0
  have hx0 : St.Extends (fun e => ∀ layers, e = .MergeProcessConfig layers → layers.length = 3)
      s s0 := by
    rw [← hs0]
    exact (St.Extends.refl _ s).emit _ (fun layers hl => by simp at hl)
  split
  · exact hx0
  · rename_i d _
    obtain ⟨s1, h1, hfs1, hx1⟩ := readFileTemplate_eq W tlsOverride data s0
    have hx1 := hx0.trans (hx1.mono hread)
    rw [h1]
    cases (readFileTemplate W tlsOverride data (St.init s0.fs)).1 with
    | error err => exact hx1
    | ok b =>
      simp only [hlen, if_true]
      obtain ⟨s2, h2, hfs2, hx2⟩ := readFileTemplate_eq W r.configOverrideFile data s1
      have hx2 := hx1.trans (hx2.mono hread)
      rw [h2]
      cases (readFileTemplate W r.configOverrideFile data (St.init s1.fs)).1 with
      | error err => exact hx2
      | ok o =>
        simp only
        have hx3 := hx2.emit (.MergeProcessConfig ([d, b] ++ [o]))
          (fun layers hl => by cases hl; rfl)
        split
        · exact hx3
        · split
          · exact hx3.emit (.JSONToYAML _) (fun layers hl => by simp at hl)
          · exact hx3.emit (.JSONToYAML _) (fun layers hl => by simp at hl)

theorem configFromDefaultsPlusOverride_steps (r : renderOpts) (fs : σ) (data : Config)
    (tlsOverride : String) (s : St σ) (hne : r.configOverrideFile ≠ "")
    (hcons : s.fs = replay W fs s.log) :
    St.ExtendsAt (runStep W r fs) s (r.configFromDefaultsPlusOverride W data tlsOverride s).2 ∧
    (r.configFromDefaultsPlusOverride W data tlsOverride s).2.fs
      = replay W fs (r.configFromDefaultsPlusOverride W data tlsOverride s).2.log := by
  obtain ⟨hfs, hx, _⟩ := configFromDefaultsPlusOverride_spec W r data tlsOverride s
  have hx' := (hx.and (configFromDefaultsPlusOverride_layers_three W r data tlsOverride s hne))
  have hnw : ∀ mid : List Event, (∀ x ∈ mid,
      ((configEvent data x ∧ (x.isMerge = true → r.configOverrideFile ≠ "" →
        ∃ tpl, W.ReadFile s.fs r.configOverrideFile = .ok tpl)) ∧
        ∀ layers, x = .MergeProcessConfig layers → layers.length = 3)) →
      replay W fs (s.log ++ mid) = s.fs := by
    intro mid hmid
    rw [replay_append, ← hcons]
    exact replay_of_no_write W _ _ (fun e he fs' => configEvent_write W data e (hmid e he).1.1 fs')
  constructor
  · refine hx'.at.monoAt ?_
    rintro l e ⟨⟨⟨hce, hm⟩, hl⟩, mid, hmid, hall⟩
    cases e with
    | MergeProcessConfig layers =>
      refine ⟨hl layers rfl, ?_⟩
      obtain ⟨tpl, htpl⟩ := hm rfl hne
      exact ⟨tpl, by rw [hmid, hnw mid hall]; exact htpl⟩
    | WriteFile filename d perm => exact absurd hce (by simp [configEvent])
    | _ => exact trivial
  · obtain ⟨evs, hlog, hall⟩ := hx'
    rw [hfs, hlog]
    exact (hnw evs hall).symm

theorem configFromDefaultsPlusOverride_ok_inv (r : renderOpts) (data : Config)
    (tlsOverride : String) (s s' : St σ) (yml : Bytes)
    (h : r.configFromDefaultsPlusOverride W data tlsOverride s = (.ok yml, s'))
    (hne : r.configOverrideFile ≠ "") :
    ∃ d b o m,
      W.MustAsset (filepath.Join [bootstrapVersion, "kube-apiserver", "defaultconfig.yaml"])
        = some d ∧
      (readFileTemplate W tlsOverride data (St.init s.fs)).1 = .ok b ∧
      (readFileTemplate W r.configOverrideFile data (St.init s.fs)).1 = .ok o ∧
      W.MergeProcessConfig [d, b, o] = .ok m ∧ W.JSONToYAML m = .ok yml ∧
      mergeCalls s'.log = mergeCalls s.log ++ [[d, b, o]] := by
  unfold renderOpts.configFromDefaultsPlusOverride at h
  simp only at h
  generalize hs0 : s.emit (.MustAsset
    (filepath.Join [bootstrapVersion, "kube-apiserver", "defaultconfig.yaml"])) = s0 at h
  have hfs0 : s0.fs = s.fs := by rw [← hs0]; rfl
  have hm0 : mergeCalls s0.log = mergeCalls s.log := by
    rw [← hs0]; simp [St.emit, mergeCalls]
  have key : ∀ (s' : St σ) (e : Event),
      mergeCalls (s'.emit e).log = mergeCalls s'.log ++ mergeCalls [e] := by
    intro s' e
    simp [St.emit, mergeCalls]
  have hlen : r.configOverrideFile.length > 0 := by
    rcases Nat.eq_zero_or_pos r.configOverrideFile.length with h0 | h0
    · exact absurd ((length_eq_zero_iff _).mp h0) hne
    · exact h0
  cases hd : W.MustAsset
      (filepath.Join [bootstrapVersion, "kube-apiserver", "defaultconfig.yaml"]) with
  | none => simp [hd] at h
  | some d =>
    simp only [hd] at h
    obtain ⟨s1, h1, hfs1, hx1⟩ := readFileTemplate_eq W tlsOverride data s0
    have hm1 := mergeCalls_of_extends hx1
    rw [h1] at h
    cases hb : (readFileTemplate W tlsOverride data (St.init s0.fs)).1 with
    | error err => simp [hb] at h
    | ok b =>
      simp only [hb, hlen, if_true] at h
      obtain ⟨s2, h2, hfs2, hx2⟩ := readFileTemplate_eq W r.configOverrideFile data s1
      have hm2 := mergeCalls_of_extends hx2
      rw [h2] at h
      cases ho : (readFileTemplate W r.configOverrideFile data (St.init s1.fs)).1 with
      | error err => simp [ho] at h
      | ok o =>
        simp only [ho, List.cons_append, List.nil_append] at h
        cases hm : W.MergeProcessConfig [d, b, o] with
        | error err => simp [hm] at h
        | ok m =>
          simp only [hm] at h
          cases hy : W.JSONToYAML m with
          | error err => simp [hy] at h
          | ok y =>
            simp only [hy, Prod.mk.injEq, Res.ok.injEq] at h
            obtain ⟨hyy, hs'⟩ := h
            refine ⟨d, b, o, m, rfl, ?_, ?_, hm, ?_, ?_⟩
            · rw [← hfs0]; exact hb
            · rw [← hfs0, ← hfs1]; exact ho
            · rw [hy, hyy]
            · rw [← hs']
              simp only [key, hm2, hm1, hm0]
              simp [mergeCalls]

theorem manifests_log (r : renderOpts) (renderConfig : Config) (dirs : List String) :
    ∀ s : St σ, St.Extends (manifestEvent W renderConfig) s
      (renderOpts.Run.manifests W r renderConfig dirs s).2 := by
  induction dirs with
  | nil => intro s; exact St.Extends.refl _ s
  | cons manifestDir rest ih =>
    intro s
    unfold renderOpts.Run.manifests
    simp only
    have h1 := (St.Extends.refl (manifestEvent W renderConfig) s).emit
      (.New (filepath.Join [r.templatesDir, manifestDir]) renderConfig [W.OnlyYaml])
      ⟨rfl, rfl⟩
    split
    · exact h1
    · rename_i manifests _
      have h2 := h1.emit
        (.WriteFiles manifests (filepath.Join [r.assetOutputDir, manifestDir])) trivial
      split
      · exact h2.setFs _
      · exact (h2.setFs _).trans (ih _)

theorem manifests_steps (r r' : renderOpts) (fs : σ) (renderConfig : Config)
    (dirs : List String) :
    ∀ s : St σ, s.fs = replay W fs s.log →
      St.ExtendsAt (runStep W r' fs) s (renderOpts.Run.manifests W r renderConfig dirs s).2 ∧
      (renderOpts.Run.manifests W r renderConfig dirs s).2.fs
        = replay W fs (renderOpts.Run.manifests W r renderConfig dirs s).2.log := by
  induction dirs with
  | nil => intro s hcons; exact ⟨St.ExtendsAt.reflAt _ s, hcons⟩
  | cons manifestDir rest ih =>
    intro s hcons
    unfold renderOpts.Run.manifests
    simp only
    generalize hs1 : s.emit (.New (filepath.Join [r.templatesDir, manifestDir]) renderConfig
      [W.OnlyYaml]) = s1
    have h1 : St.ExtendsAt (runStep W r' fs) s s1 := by
      rw [← hs1]
      exact (St.ExtendsAt.reflAt (runStep W r' fs) s).emitAt _ trivial
    have hc1 : s1.fs = replay W fs s1.log := by
      rw [← hs1]
      simp only [St.emit, replay_append, ← hcons]
      rfl
    split
    · exact ⟨h1, hc1⟩
    · rename_i manifests _
      generalize hs2 : s1.emit
        (.WriteFiles manifests (filepath.Join [r.assetOutputDir, manifestDir])) = s2
      have h2 : St.ExtendsAt (runStep W r' fs) s s2 := by
        rw [← hs2]
        exact h1.emitAt _ trivial
      have hc2 : ∀ fs' err, W.WriteFiles s2.fs manifests
            (filepath.Join [r.assetOutputDir, manifestDir]) = (fs', err) →
          fs' = replay W fs s2.log := by
        intro fs' err hw
        rw [← hs2] at hw ⊢
        simp only [St.emit, replay_append, ← hc1] at hw ⊢
        simp only [replay, List.foldl_cons, List.foldl_nil, Event.write, hw]
      split
      · rename_i fs' err hw
        exact ⟨h2.setFsAt fs', hc2 fs' _ hw⟩
      · rename_i fs' hw
        obtain ⟨ih1, ih2⟩ := ih { s2 with fs := fs' } (hc2 fs' _ hw)
        exact ⟨(h2.setFsAt fs').transAt ih1, ih2⟩
theorem manifests_ok_inv (r : renderOpts) (renderConfig : Config) (dir1 dir2 : String)
    (s s3 : St σ)
    (h : renderOpts.Run.manifests W r renderConfig [dir1, dir2] s = (none, s3)) :
    ∃ m1 m2 fs2 fs3,
      W.New s.fs (filepath.Join [r.templatesDir, dir1]) renderConfig [W.OnlyYaml] = .ok m1 ∧
      W.WriteFiles s.fs m1 (filepath.Join [r.assetOutputDir, dir1]) = (fs2, none) ∧
      W.New fs2 (filepath.Join [r.templatesDir, dir2]) renderConfig [W.OnlyYaml] = .ok m2 ∧
      W.WriteFiles fs2 m2 (filepath.Join [r.assetOutputDir, dir2]) = (fs3, none) ∧
      s3.fs = fs3 ∧
      s3.log = s.log ++
        [.New (filepath.Join [r.templatesDir, dir1]) renderConfig [W.OnlyYaml],
         .WriteFiles m1 (filepath.Join [r.assetOutputDir, dir1]),
         .New (filepath.Join [r.templatesDir, dir2]) renderConfig [W.OnlyYaml],
         .WriteFiles m2 (filepath.Join [r.assetOutputDir, dir2])] := by
  simp only [renderOpts.Run.manifests] at h
  split at h
  · simp at h
  · rename_i m1 hn1
    split at h
    · simp at h
    · rename_i fs2 hw1
      split at h
      · simp at h
      · rename_i m2 hn2
        split at h
        · simp at h
        · rename_i fs3 hw2
          simp only [Prod.mk.injEq, true_and] at h
          refine ⟨m1, m2, fs2, fs3, hn1, hw1, hn2, hw2, ?_, ?_⟩
          · rw [← h]
          · rw [← h]
            simp [St.emit]

theorem renderOpts.complete_eq (r : renderOpts) : r.complete = (r.complete.1, none) := by
  unfold renderOpts.complete
  split <;> rfl

theorem Run_ok_inv (r : renderOpts) (s : St σ) (h : (r.Run W s).1 = .ok ()) :
    ∃ res1 s1 loaded s3 b s4 fs5,
      r.complete.1.configFromDefaultsPlusOverride W r.complete.1.renderConfig
        (filepath.Join [r.complete.1.templatesDir, "config", "config-overrides.yaml"]) s
        = (res1, s1) ∧
      W.LoadFilesRecursively s1.fs r.complete.1.assetInputDir
        [skipSchedulerPredicate r.complete.1] = .ok loaded ∧
      renderOpts.Run.manifests W r.complete.1
        { r.complete.1.renderConfig with
          PostBootstrapKubeControllerManagerConfig :=
            res1.bytes
          Assets := loaded }
        ["bootstrap-manifests", "manifests"]
        (s1.emit (.LoadFilesRecursively r.complete.1.assetInputDir
          [skipSchedulerPredicate r.complete.1])) = (none, s3) ∧
      r.complete.1.configFromDefaultsPlusOverride W
        { r.complete.1.renderConfig with
          PostBootstrapKubeControllerManagerConfig :=
            res1.bytes
          Assets := loaded }
        (filepath.Join [r.complete.1.templatesDir, "config", "bootstrap-config-overrides.yaml"])
        s3 = (.ok b, s4) ∧
      W.WriteFile s4.fs r.complete.1.configOutputFile b 0o644 = (fs5, none) ∧
      r.Run W s = (.ok (), r.complete.1,
        ⟨fs5, s4.log ++ [.WriteFile r.complete.1.configOutputFile b 0o644]⟩) := by
  unfold renderOpts.Run at h ⊢
  rw [renderOpts.complete_eq r] at h ⊢
  simp only at h ⊢
  generalize r.complete.1 = r' at h ⊢
  cases h1 : r'.configFromDefaultsPlusOverride W r'.renderConfig
      (filepath.Join [r'.templatesDir, "config", "config-overrides.yaml"]) s with
  | mk res1 s1 =>
    simp only [renderOpts.renderConfig] at h1
    rw [h1] at h ⊢
    cases res1 with
    | panic msg => simp at h
    | ok yml =>
      simp only at h ⊢
      split at h
      · simp at h
      · rename_i loaded hload
        split at h
        · simp at h
        · rename_i s3 hman
          split at h
          · simp at h
          · simp at h
          · rename_i b s4 hcall2
            split at h
            · simp at h
            · rename_i fs5 hw
              refine ⟨.ok yml, s1, loaded, s3, b, s4, fs5, rfl, hload, hman, hcall2, hw, ?_⟩
              rfl
    | err e =>
      simp only at h ⊢
      split at h
      · simp at h
      · rename_i loaded hload
        split at h
        · simp at h
        · rename_i s3 hman
          split at h
          · simp at h
          · simp at h
          · rename_i b s4 hcall2
            split at h
            · simp at h
            · rename_i fs5 hw
              refine ⟨.err e, s1, loaded, s3, b, s4, fs5, rfl, hload, hman, hcall2, hw, ?_⟩
              rfl
theorem configEvent_runEvent (r : renderOpts) (data : Config)
    (hd : data.hasParameters r.manifest) (Q M : Prop) (fs : σ)
    (hM : (r.configOverrideFile ≠ "" → ∃ tpl, W.ReadFile fs r.configOverrideFile = .ok tpl)
      → M) (e : Event)
    (h : configEvent data e ∧ (e.isMerge = true → r.configOverrideFile ≠ "" →
        ∃ tpl, W.ReadFile fs r.configOverrideFile = .ok tpl)) :
    runEvent W r e ∧ (e.isWriteFile = true → Q) ∧ (e.isMerge = true → M) := by
  obtain ⟨h1, h2⟩ := h
  refine ⟨?_, ?_, fun hm => hM (h2 hm)⟩
  · cases e <;> simp_all [runEvent, configEvent]
  · cases e <;> simp_all [configEvent, Event.isWriteFile]

theorem manifestEvent_runEvent (r : renderOpts) (data : Config)
    (hd : data.hasParameters r.manifest) (Q M : Prop) (e : Event)
    (h : manifestEvent W data e) :
    runEvent W r e ∧ (e.isWriteFile = true → Q) ∧ (e.isMerge = true → M) := by
  cases e <;> simp_all [runEvent, manifestEvent, Event.isWriteFile, Event.isMerge]

theorem Run_log (r : renderOpts) (s : St σ) :
    St.Extends
      (fun e => runEvent W r.complete.1 e ∧
        (e.isWriteFile = true → ∃ data s3 b s4,
          r.complete.1.configFromDefaultsPlusOverride W data
            (filepath.Join [r.complete.1.templatesDir, "config",
              "bootstrap-config-overrides.yaml"]) s3 = (.ok b, s4)) ∧
        (e.isMerge = true → r.complete.1.configOverrideFile ≠ "" →
          ∃ fs tpl, W.ReadFile fs r.complete.1.configOverrideFile = .ok tpl))
      s (r.Run W s).2.2 := by
  unfold renderOpts.Run
  rw [renderOpts.complete_eq r]
  simp only
  generalize r.complete.1 = r'
  generalize hQ : (∃ data s3 b s4,
          r'.configFromDefaultsPlusOverride W data
            (filepath.Join [r'.templatesDir, "config",
              "bootstrap-config-overrides.yaml"]) s3 = (Res.ok b, s4)) = Q
  generalize hM : (r'.configOverrideFile ≠ "" →
          ∃ fs tpl, W.ReadFile fs r'.configOverrideFile = .ok tpl) = M
  have hMof : ∀ fs : σ, (r'.configOverrideFile ≠ "" →
      ∃ tpl, W.ReadFile fs r'.configOverrideFile = .ok tpl) → M := by
    intro fs h
    rw [← hM]
    intro hne
    obtain ⟨tpl, htpl⟩ := h hne
    exact ⟨fs, tpl, htpl⟩
  have hp0 : r'.renderConfig.hasParameters r'.manifest := ⟨rfl, rfl, rfl, rfl, rfl, rfl, rfl⟩
  have hx1 := ((configFromDefaultsPlusOverride_spec W r' r'.renderConfig
      (filepath.Join [r'.templatesDir, "config", "config-overrides.yaml"]) s).2.1).mono
      (configEvent_runEvent W r' _ hp0 Q M _ (hMof _))
  cases h1 : r'.configFromDefaultsPlusOverride W r'.renderConfig
      (filepath.Join [r'.templatesDir, "config", "config-overrides.yaml"]) s with
  | mk res1 s1 =>
    rw [h1] at hx1
    simp only [renderOpts.renderConfig] at h1
    rw [h1]
    have tail : ∀ pb : Bytes, St.Extends (fun e => runEvent W r' e ∧ (e.isWriteFile = true → Q) ∧ (e.isMerge = true → M)) s
        (match W.LoadFilesRecursively
            (s1.emit (.LoadFilesRecursively r'.assetInputDir [skipSchedulerPredicate r'])).fs
            r'.assetInputDir [skipSchedulerPredicate r'] with
          | .error err =>
            ((.err (.Errorf "failed loading assets from %q: %v" [r'.assetInputDir] err), r',
              s1.emit (.LoadFilesRecursively r'.assetInputDir [skipSchedulerPredicate r'])) :
              Res Unit × renderOpts × St σ)
          | .ok loaded =>
            match renderOpts.Run.manifests W r'
              { r'.renderConfig with
                PostBootstrapKubeControllerManagerConfig := pb, Assets := loaded }
              ["bootstrap-manifests", "manifests"]
              (s1.emit (.LoadFilesRecursively r'.assetInputDir [skipSchedulerPredicate r']))
            with
            | (some err, s) => (.err err, r', s)
            | (none, s) =>
              match r'.configFromDefaultsPlusOverride W
                { r'.renderConfig with
                  PostBootstrapKubeControllerManagerConfig := pb, Assets := loaded }
                (filepath.Join [r'.templatesDir, "config", "bootstrap-config-overrides.yaml"])
                s with
              | (.panic msg, s) => (.panic msg, r', s)
              | (.err err, s) =>
                (.err (.Errorf "failed to generated bootstrap config: %v" [] err), r', s)
              | (.ok mergedConfig, s) =>
                match W.WriteFile (s.emit (.WriteFile r'.configOutputFile mergedConfig 0o644)).fs
                  r'.configOutputFile mergedConfig 0o644 with
                | (fs, some err) =>
                  (.err (.Errorf "failed to write merged config to %q: %v"
                    [r'.configOutputFile] err), r',
                    { (s.emit (.WriteFile r'.configOutputFile mergedConfig 0o644)) with
                      fs := fs })
                | (fs, none) =>
                  (.ok (), r',
                    { (s.emit (.WriteFile r'.configOutputFile mergedConfig 0o644)) with
                      fs := fs })).2.2 := by
      intro pb
      have hx2 := hx1.emit
        (.LoadFilesRecursively r'.assetInputDir [skipSchedulerPredicate r'])
        ⟨⟨rfl, rfl⟩, by simp [Event.isWriteFile], by simp [Event.isMerge]⟩
      split
      · exact hx2
      · rename_i loaded _
        have hp : ({ r'.renderConfig with
            PostBootstrapKubeControllerManagerConfig := pb, Assets := loaded } :
            Config).hasParameters r'.manifest := ⟨rfl, rfl, rfl, rfl, rfl, rfl, rfl⟩
        have hx3 := hx2.trans ((manifests_log W r' _ ["bootstrap-manifests", "manifests"]
          (s1.emit (.LoadFilesRecursively r'.assetInputDir
            [skipSchedulerPredicate r']))).mono (manifestEvent_runEvent W r' _ hp Q M))
        split
        · rename_i heq
          rw [heq] at hx3
          exact hx3
        · rename_i s3 heq
          rw [heq] at hx3
          have hx4 := hx3.trans (((configFromDefaultsPlusOverride_spec W r' _
            (filepath.Join [r'.templatesDir, "config", "bootstrap-config-overrides.yaml"])
            s3).2.1).mono (configEvent_runEvent W r' _ hp Q M _ (hMof _)))
          split
          · rename_i heq2
            rw [heq2] at hx4
            exact hx4
          · rename_i heq2
            rw [heq2] at hx4
            exact hx4
          · rename_i b s4 heq2
            rw [heq2] at hx4
            have hq : Q := by
              rw [← hQ]
              exact ⟨_, s3, b, s4, heq2⟩
            have hx5 := hx4.emit (.WriteFile r'.configOutputFile b 0o644)
              ⟨⟨rfl, rfl⟩, fun _ => hq, by simp [Event.isMerge]⟩
            split
            · exact hx5.setFs _
            · exact hx5.setFs _
    cases res1 with
    | panic msg => exact hx1
    | ok yml => exact tail yml
    | err e => exact tail ""
theorem Run_receiver (r : renderOpts) (s : St σ) : (r.Run W s).2.1 = r.complete.1 := by
  unfold renderOpts.Run
  rw [renderOpts.complete_eq r]
  simp only
  repeat' split
  all_goals rfl

theorem renderOpts.complete_fields (r : renderOpts) :
    r.complete.1.manifest = r.manifest ∧ r.complete.1.templatesDir = r.templatesDir ∧
    r.complete.1.assetInputDir = r.assetInputDir ∧
    r.complete.1.assetOutputDir = r.assetOutputDir ∧
    r.complete.1.configOutputFile = r.configOutputFile ∧
    r.complete.1.skipSchedulerBootstrapManifest = r.skipSchedulerBootstrapManifest ∧
    r.complete.1.renderConfig = r.renderConfig ∧
    r.complete.1.configOverrideFile ≠ "" := by
  unfold renderOpts.complete
  split
  · refine ⟨rfl, rfl, rfl, rfl, rfl, rfl, rfl, ?_⟩
    exact filepath.Join_ne_empty _ ⟨"kube-controller-manager-config-overrides.yaml",
      by simp, by decide⟩
  · rename_i h
    refine ⟨rfl, rfl, rfl, rfl, rfl, rfl, rfl, ?_⟩
    intro h'
    exact h ((length_eq_zero_iff _).mpr h')
theorem Run_steps (r : renderOpts) (fs : σ) :
    St.ExtendsAt (runStep W r.complete.1 fs) (St.init fs) (r.Run W (St.init fs)).2.2 ∧
    (r.Run W (St.init fs)).2.2.fs = replay W fs (r.Run W (St.init fs)).2.2.log := by
  obtain ⟨_, _, _, _, _, _, _, hne⟩ := renderOpts.complete_fields r
  unfold renderOpts.Run
  rw [renderOpts.complete_eq r]
  simp only
  generalize r.complete.1 = r' at hne
  obtain ⟨hx1, hc1⟩ := configFromDefaultsPlusOverride_steps W r' fs r'.renderConfig
      (filepath.Join [r'.templatesDir, "config", "config-overrides.yaml"]) (St.init fs) hne rfl
  cases h1 : r'.configFromDefaultsPlusOverride W r'.renderConfig
      (filepath.Join [r'.templatesDir, "config", "config-overrides.yaml"]) (St.init fs) with
  | mk res1 s1 =>
    rw [h1] at hx1 hc1
    simp only [renderOpts.renderConfig] at h1
    rw [h1]
    have tail : ∀ pb : Bytes, (fun out : Res Unit × renderOpts × St σ =>
        St.ExtendsAt (runStep W r' fs) (St.init fs) out.2.2 ∧
          out.2.2.fs = replay W fs out.2.2.log)
        (match W.LoadFilesRecursively
            (s1.emit (.LoadFilesRecursively r'.assetInputDir [skipSchedulerPredicate r'])).fs
            r'.assetInputDir [skipSchedulerPredicate r'] with
          | .error err =>
            ((.err (.Errorf "failed loading assets from %q: %v" [r'.assetInputDir] err), r',
              s1.emit (.LoadFilesRecursively r'.assetInputDir [skipSchedulerPredicate r'])) :
              Res Unit × renderOpts × St σ)
          | .ok loaded =>
            match renderOpts.Run.manifests W r'
              { r'.renderConfig with
                PostBootstrapKubeControllerManagerConfig := pb, Assets := loaded }
              ["bootstrap-manifests", "manifests"]
              (s1.emit (.LoadFilesRecursively r'.assetInputDir [skipSchedulerPredicate r']))
            with
            | (some err, s) => (.err err, r', s)
            | (none, s) =>
              match r'.configFromDefaultsPlusOverride W
                { r'.renderConfig with
                  PostBootstrapKubeControllerManagerConfig := pb, Assets := loaded }
                (filepath.Join [r'.templatesDir, "config", "bootstrap-config-overrides.yaml"])
                s with
              | (.panic msg, s) => (.panic msg, r', s)
              | (.err err, s) =>
                (.err (.Errorf "failed to generated bootstrap config: %v" [] err), r', s)
              | (.ok mergedConfig, s) =>
                match W.WriteFile (s.emit (.WriteFile r'.configOutputFile mergedConfig 0o644)).fs
                  r'.configOutputFile mergedConfig 0o644 with
                | (fs, some err) =>
                  (.err (.Errorf "failed to write merged config to %q: %v"
                    [r'.configOutputFile] err), r',
                    { (s.emit (.WriteFile r'.configOutputFile mergedConfig 0o644)) with
                      fs := fs })
                | (fs, none) =>
                  (.ok (), r',
                    { (s.emit (.WriteFile r'.configOutputFile mergedConfig 0o644)) with
                      fs := fs })) := by
      intro pb
      simp only
      generalize hs2 : s1.emit
        (.LoadFilesRecursively r'.assetInputDir [skipSchedulerPredicate r']) = s2
      have hx2 : St.ExtendsAt (runStep W r' fs) (St.init fs) s2 := by
        rw [← hs2]; exact hx1.emitAt _ trivial
      have hc2 : s2.fs = replay W fs s2.log := by
        rw [← hs2]
        simp only [St.emit, replay_append]
        exact hc1
      split
      · exact ⟨hx2, hc2⟩
      · rename_i loaded _
        obtain ⟨hx3, hc3⟩ := manifests_steps W r' r' fs
          { r'.renderConfig with
            PostBootstrapKubeControllerManagerConfig := pb, Assets := loaded }
          ["bootstrap-manifests", "manifests"] s2 hc2
        have hx3 := hx2.transAt hx3
        split
        · rename_i heq
          rw [heq] at hx3 hc3
          exact ⟨hx3, hc3⟩
        · rename_i s3 heq
          rw [heq] at hx3 hc3
          obtain ⟨hx4, hc4⟩ := configFromDefaultsPlusOverride_steps W r' fs
            { r'.renderConfig with
              PostBootstrapKubeControllerManagerConfig := pb, Assets := loaded }
            (filepath.Join [r'.templatesDir, "config", "bootstrap-config-overrides.yaml"])
            s3 hne hc3
          have hx4 := hx3.transAt hx4
          split
          · rename_i heq2
            rw [heq2] at hx4 hc4
            exact ⟨hx4, hc4⟩
          · rename_i heq2
            rw [heq2] at hx4 hc4
            exact ⟨hx4, hc4⟩
          · rename_i b s4 heq2
            rw [heq2] at hx4 hc4
            obtain ⟨d, b2, o2, _, _, _, _, _, _, hmc⟩ :=
              configFromDefaultsPlusOverride_ok_inv W r' _ _ s3 s4 b heq2 hne
            have hx5 := hx4.emitAt (.WriteFile r'.configOutputFile b 0o644)
              (by show mergeCalls s4.log ≠ []; rw [hmc]; simp)
            have hc5 : ∀ fs' err, W.WriteFile
                (s4.emit (.WriteFile r'.configOutputFile b 0o644)).fs
                r'.configOutputFile b 0o644 = (fs', err) →
                fs' = replay W fs (s4.emit (.WriteFile r'.configOutputFile b 0o644)).log := by
              intro fs' err hw
              simp only [St.emit, replay_append] at hw ⊢
              simp only at hc4
              rw [← hc4]
              simp only [replay, List.foldl_cons, List.foldl_nil, Event.write, hw]
            split
            · rename_i hw
              exact ⟨hx5.setFsAt _, hc5 _ _ hw⟩
            · rename_i hw
              exact ⟨hx5.setFsAt _, hc5 _ _ hw⟩
    cases res1 with
    | panic msg => exact ⟨hx1, hc1⟩
    | ok yml => exact tail yml
    | err e => exact tail ""

/-- The sample run of C1: with the user override set, the merge is called on the default,
the post-bootstrap overlay and the user override, in this order. -/
theorem configFromDefaultsPlusOverride_layers_witness :
    (readFileTemplate (sampleWorld sampleInput sampleBindata) "tpl/config/config-overrides.yaml"
        sampleOpts.renderConfig (St.init [])).1 = .ok "b: 2\n" ∧
    mergeCalls (sampleOpts.complete.1.configFromDefaultsPlusOverride
        (sampleWorld sampleInput sampleBindata) sampleOpts.renderConfig
        "tpl/config/config-overrides.yaml" (St.init [])).2.log
      = [["a: 1\n", "b: 2\n", "d: 4\n"]] :=
  ⟨rfl, (configFromDefaultsPlusOverride_layers (sampleWorld sampleInput sampleBindata)
    sampleOpts.complete.1 sampleOpts.renderConfig "tpl/config/config-overrides.yaml"
    (St.init []) "a: 1\n" "b: 2\n" "d: 4\n" (by rfl) (by rfl) (fun _ => by rfl)).1⟩

theorem St.emit_log (s : St σ) (e : Event) : (s.emit e).log = s.log ++ [e] := rfl

theorem writtenFiles_append (l l' : List Event) :
    writtenFiles (l ++ l') = writtenFiles l ++ writtenFiles l' :=
  List.filterMap_append _ _ _

theorem writeFilesCalls_append (l l' : List Event) :
    writeFilesCalls (l ++ l') = writeFilesCalls l ++ writeFilesCalls l' :=
  List.filterMap_append _ _ _

theorem newCalls_append (l l' : List Event) :
    newCalls (l ++ l') = newCalls l ++ newCalls l' :=
  List.filterMap_append _ _ _

theorem mergeCalls_append (l l' : List Event) :
    mergeCalls (l ++ l') = mergeCalls l ++ mergeCalls l' :=
  List.filterMap_append _ _ _

theorem skipSchedulerPredicate_complete (r : renderOpts) :
    skipSchedulerPredicate r.complete.1 = skipSchedulerPredicate r := by
  obtain ⟨_, _, _, _, _, hk, _, _⟩ := renderOpts.complete_fields r
  funext f
  simp [skipSchedulerPredicate, hk]

theorem configFromDefaultsPlusOverride_frame (r : renderOpts) (data : Config)
    (tlsOverride : String) (s : St σ) :
    writtenFiles (r.configFromDefaultsPlusOverride W data tlsOverride s).2.log
      = writtenFiles s.log ∧
    writeFilesCalls (r.configFromDefaultsPlusOverride W data tlsOverride s).2.log
      = writeFilesCalls s.log ∧
    newCalls (r.configFromDefaultsPlusOverride W data tlsOverride s).2.log
      = newCalls s.log := by
  have hx := (configFromDefaultsPlusOverride_spec W r data tlsOverride s).2.1
  refine ⟨?_, ?_, ?_⟩
  · exact hx.filterMap _ (fun e he => by cases e <;> simp_all [configEvent])
  · exact hx.filterMap _ (fun e he => by cases e <;> simp_all [configEvent])
  · exact hx.filterMap _ (fun e he => by cases e <;> simp_all [configEvent])

/-- C6, amended: whenever `Run` returns nil and its post-bootstrap call of
`configFromDefaultsPlusOverride`, on the overlay `templatesDir/config/config-overrides.yaml`,
returned `pb`: the assets `loaded` come from `assetInputDir`; the `Config` of the rest of
the run is the one built from the manifest options with `pb` in
`PostBootstrapKubeControllerManagerConfig` and `loaded` in `Assets`; the manifests `m1` and
`m2` that `assets.New` renders against it from `templatesDir/bootstrap-manifests` and
`templatesDir/manifests` are written, in this order and nothing else, to
`assetOutputDir/bootstrap-manifests` and `assetOutputDir/manifests`; in the file system
`fs3` these writes leave, the bootstrap call, on the overlay
`templatesDir/config/bootstrap-config-overrides.yaml`, returns `b`; the last call of the run
and its only `ioutil.WriteFile` writes `b`, not `pb`, to `configOutputFile`; and the run
merges exactly twice, each time three layers with the same default `d` first, then the
built-in overlay and the user override of that run as instantiated against its `Config`. -/
theorem Run_persists_bootstrap_config (r : renderOpts) (fs : σ) (pb : Bytes)
    (h : (r.Run W (St.init fs)).1 = .ok ())
    (hpost : (r.complete.1.configFromDefaultsPlusOverride W r.renderConfig
      (filepath.Join [r.templatesDir, "config", "config-overrides.yaml"]) (St.init fs)).1
        = .ok pb) :
    ∃ (loaded : List (String × Bytes)) (m1 m2 : List Asset) (fs2 fs3 : σ) (s3 s4 : St σ)
      (b d b1 o1 b2 o2 : Bytes),
      W.LoadFilesRecursively fs r.assetInputDir [skipSchedulerPredicate r] = .ok loaded ∧
      W.New fs (filepath.Join [r.templatesDir, "bootstrap-manifests"])
        { r.renderConfig with
          PostBootstrapKubeControllerManagerConfig := pb, Assets := loaded }
        [W.OnlyYaml] = .ok m1 ∧
      W.WriteFiles fs m1 (filepath.Join [r.assetOutputDir, "bootstrap-manifests"])
        = (fs2, none) ∧
      W.New fs2 (filepath.Join [r.templatesDir, "manifests"])
        { r.renderConfig with
          PostBootstrapKubeControllerManagerConfig := pb, Assets := loaded }
        [W.OnlyYaml] = .ok m2 ∧
      W.WriteFiles fs2 m2 (filepath.Join [r.assetOutputDir, "manifests"]) = (fs3, none) ∧
      s3.fs = fs3 ∧
      r.complete.1.configFromDefaultsPlusOverride W
        { r.renderConfig with
          PostBootstrapKubeControllerManagerConfig := pb, Assets := loaded }
        (filepath.Join [r.templatesDir, "config", "bootstrap-config-overrides.yaml"]) s3
        = (.ok b, s4) ∧
      (r.Run W (St.init fs)).2.2.log = s4.log ++ [.WriteFile r.configOutputFile b 0o644] ∧
      (r.Run W (St.init fs)).2.2.fs = (W.WriteFile fs3 r.configOutputFile b 0o644).1 ∧
      writtenFiles (r.Run W (St.init fs)).2.2.log = [(r.configOutputFile, b)] ∧
      writeFilesCalls (r.Run W (St.init fs)).2.2.log
        = [(m1, filepath.Join [r.assetOutputDir, "bootstrap-manifests"]),
           (m2, filepath.Join [r.assetOutputDir, "manifests"])] ∧
      newCalls (r.Run W (St.init fs)).2.2.log
        = [(filepath.Join [r.templatesDir, "bootstrap-manifests"],
            { r.renderConfig with
              PostBootstrapKubeControllerManagerConfig := pb, Assets := loaded }),
           (filepath.Join [r.templatesDir, "manifests"],
            { r.renderConfig with
              PostBootstrapKubeControllerManagerConfig := pb, Assets := loaded })] ∧
      mergeCalls (r.Run W (St.init fs)).2.2.log = [[d, b1, o1], [d, b2, o2]] ∧
      W.MustAsset (filepath.Join [bootstrapVersion, "kube-apiserver", "defaultconfig.yaml"])
        = some d ∧
      (readFileTemplate W (filepath.Join [r.templatesDir, "config", "config-overrides.yaml"])
        r.renderConfig (St.init fs)).1 = .ok b1 ∧
      (readFileTemplate W r.complete.1.configOverrideFile r.renderConfig (St.init fs)).1
        = .ok o1 ∧
      (readFileTemplate W
        (filepath.Join [r.templatesDir, "config", "bootstrap-config-overrides.yaml"])
        { r.renderConfig with
          PostBootstrapKubeControllerManagerConfig := pb, Assets := loaded }
        (St.init fs3)).1 = .ok b2 ∧
      (readFileTemplate W r.complete.1.configOverrideFile
        { r.renderConfig with
          PostBootstrapKubeControllerManagerConfig := pb, Assets := loaded }
        (St.init fs3)).1 = .ok o2 := by
  obtain ⟨res1, s1, loaded, s3, b, s4, fs5, h1, hload, hman, h2, hw, hrun⟩ :=
    Run_ok_inv W r (St.init fs) h
  obtain ⟨hm, ht, hi, ho, hc, hk, hrc, hne⟩ := renderOpts.complete_fields r
  rw [hrc, ht] at h1 h2
  rw [hrc] at hman
  rw [hc] at hw hrun
  rw [hi, skipSchedulerPredicate_complete] at hload hman
  rw [h1] at hpost
  simp only at hpost
  subst hpost
  obtain ⟨cfg, hcfg⟩ : ∃ cfg : Config, cfg = { r.renderConfig with
      PostBootstrapKubeControllerManagerConfig := pb, Assets := loaded } := ⟨_, rfl⟩
  have hman' : renderOpts.Run.manifests W r.complete.1 cfg ["bootstrap-manifests", "manifests"]
      (s1.emit (.LoadFilesRecursively r.assetInputDir [skipSchedulerPredicate r]))
      = (none, s3) := by
    rw [hcfg]; exact hman
  have h2' : r.complete.1.configFromDefaultsPlusOverride W cfg
      (filepath.Join [r.templatesDir, "config", "bootstrap-config-overrides.yaml"]) s3
      = (.ok b, s4) := by
    rw [hcfg]; exact h2
  have hfs1 : s1.fs = fs := by
    have := (configFromDefaultsPlusOverride_spec W r.complete.1 r.renderConfig
      (filepath.Join [r.templatesDir, "config", "config-overrides.yaml"]) (St.init fs)).1
    rw [h1] at this
    exact this
  rw [hfs1] at hload
  obtain ⟨m1, m2, fs2, fs3, hn1, hw1, hn2, hw2, hfs3, hlog3⟩ :=
    manifests_ok_inv W r.complete.1 cfg "bootstrap-manifests" "manifests" _ s3 hman'
  simp only [ht, ho, St.emit, hfs1] at hn1 hw1 hn2 hw2 hlog3
  obtain ⟨d, b1, o1, mg1, hd, hb1, ho1, _, _, hmc1⟩ :=
    configFromDefaultsPlusOverride_ok_inv W r.complete.1 r.renderConfig _ _ s1 pb h1 hne
  obtain ⟨d', b2, o2, mg2, hd', hb2, ho2, _, _, hmc2⟩ :=
    configFromDefaultsPlusOverride_ok_inv W r.complete.1 cfg _ _ s4 b h2' hne
  have hdd : d' = d := Option.some.inj (hd'.symm.trans hd)
  subst hdd
  rw [hfs3] at hb2 ho2
  obtain ⟨f1a, f1d, f1c⟩ := configFromDefaultsPlusOverride_frame W r.complete.1 r.renderConfig
    (filepath.Join [r.templatesDir, "config", "config-overrides.yaml"]) (St.init fs)
  rw [h1] at f1a f1c f1d
  obtain ⟨f3a, f3d, f3c⟩ := configFromDefaultsPlusOverride_frame W r.complete.1 cfg
    (filepath.Join [r.templatesDir, "config", "bootstrap-config-overrides.yaml"]) s3
  rw [h2'] at f3a f3c f3d
  have hfs4 : s4.fs = s3.fs := by
    have := (configFromDefaultsPlusOverride_spec W r.complete.1 cfg
      (filepath.Join [r.templatesDir, "config", "bootstrap-config-overrides.yaml"]) s3).1
    rw [h2'] at this
    exact this
  have e1a : writtenFiles s1.log = [] := f1a
  have e1c : newCalls s1.log = [] := f1c
  have e1d : writeFilesCalls s1.log = [] := f1d
  have e1m : mergeCalls s1.log = [[d', b1, o1]] := hmc1
  subst hcfg
  refine ⟨loaded, m1, m2, fs2, fs3, s3, s4, b, d', b1, o1, b2, o2, hload, hn1, hw1, hn2, hw2,
    hfs3, h2', ?_, ?_, ?_, ?_, ?_, ?_, hd, hb1, ho1, hb2, ho2⟩
  · rw [hrun]
  · rw [hrun, ← hfs3, ← hfs4, hw]
  · rw [hrun]
    simp only [writtenFiles_append, f3a, hlog3, St.emit_log, e1a]
    rfl
  · rw [hrun]
    simp only [writeFilesCalls_append, f3d, hlog3, St.emit_log, e1d]
    rfl
  · rw [hrun]
    simp only [newCalls_append, f3c, hlog3, St.emit_log, e1c]
    rfl
  · rw [hrun]
    simp only [mergeCalls_append, hmc2, hlog3, St.emit_log, e1m]
    rfl
/-- The sample run of the amended C6: `Run` returns nil after a post-bootstrap call that
returned a result, writes one file, `out/config.yaml`, and merges twice with the same
default layer. -/
theorem Run_persists_bootstrap_config_witness :
    (sampleOpts.Run (sampleWorld sampleInput sampleBindata) (St.init [])).1 = .ok () ∧
    (sampleOpts.complete.1.configFromDefaultsPlusOverride
        (sampleWorld sampleInput sampleBindata) sampleOpts.renderConfig
        (filepath.Join [sampleOpts.templatesDir, "config", "config-overrides.yaml"])
        (St.init [])).1 = .ok "a: 1\nb: 2\nd: 4\n" ∧
    (∃ b, writtenFiles
        (sampleOpts.Run (sampleWorld sampleInput sampleBindata) (St.init [])).2.2.log
      = [("out/config.yaml", b)]) ∧
    (∃ d b1 o1 b2 o2, mergeCalls
        (sampleOpts.Run (sampleWorld sampleInput sampleBindata) (St.init [])).2.2.log
      = [[d, b1, o1], [d, b2, o2]]) := by
  have h : (sampleOpts.Run (sampleWorld sampleInput sampleBindata) (St.init [])).1 = .ok () := by
    decide
  have hpost : (sampleOpts.complete.1.configFromDefaultsPlusOverride
      (sampleWorld sampleInput sampleBindata) sampleOpts.renderConfig
      (filepath.Join [sampleOpts.templatesDir, "config", "config-overrides.yaml"])
      (St.init [])).1 = .ok "a: 1\nb: 2\nd: 4\n" := by
    decide
  obtain ⟨_, _, _, _, _, _, _, b, d, b1, o1, b2, o2, _, _, _, _, _, _, _, _, _, hw, _, _, hmc, _⟩ :=
    Run_persists_bootstrap_config (sampleWorld sampleInput sampleBindata) sampleOpts []
      "a: 1\nb: 2\nd: 4\n" h hpost
  exact ⟨h, hpost, ⟨b, hw⟩, ⟨d, b1, o1, b2, o2, hmc⟩⟩

/-- C6, as stated, fails. In the sample run `Run` returns nil and its two merge runs differ
in more than the built-in overlay: the same user override is instantiated against two
different `Config` values. In the sample run without the post-bootstrap overlay `Run`
returns nil as well, after a single merge and with no post-bootstrap result in the `Config`
the manifests are rendered against. -/
theorem Run_merge_runs_not_alike :
    (sampleOpts.Run (sampleWorld sampleInput sampleBindata) (St.init [])).1 = .ok () ∧
    ((executeCalls
        (sampleOpts.Run (sampleWorld sampleInput sampleBindata) (St.init [])).2.2.log).filter
      (fun nd => decide (nd.1 = "in/kube-controller-manager-config-overrides.yaml"))).map
        (fun nd => nd.2)
      = [sampleOpts.renderConfig,
         { sampleOpts.renderConfig with
           PostBootstrapKubeControllerManagerConfig := "a: 1\nb: 2\nd: 4\n"
           Assets := [("kube-controller-manager-config-overrides.yaml", "d: 4\n"),
                      ("tls/ca.crt", "CERT\n")] }] ∧
    sampleOpts.renderConfig ≠
      { sampleOpts.renderConfig with
        PostBootstrapKubeControllerManagerConfig := "a: 1\nb: 2\nd: 4\n"
        Assets := [("kube-controller-manager-config-overrides.yaml", "d: 4\n"),
                   ("tls/ca.crt", "CERT\n")] } ∧
    (sampleOpts.Run (sampleWorld sampleInputNoPostBootstrap sampleBindata) (St.init [])).1
      = .ok () ∧
    mergeCalls (sampleOpts.Run (sampleWorld sampleInputNoPostBootstrap sampleBindata)
      (St.init [])).2.2.log = [["a: 1\n", "c: 3\n", "d: 4\n"]] ∧
    (newCalls (sampleOpts.Run (sampleWorld sampleInputNoPostBootstrap sampleBindata)
      (St.init [])).2.2.log).map (fun dc => dc.2.PostBootstrapKubeControllerManagerConfig)
      = ["", ""] := by
  decide

/-- C2, as stated, fails: with `configOverrideFile` empty and no file at the conventional
path, `Run` returns the error of the absent override instead of the two-layer merge, and no
merge is run at all. -/
theorem Run_fails_without_default_override :
    sampleOpts.configOverrideFile = "" ∧
    lookupFile (filepath.Join [sampleOpts.assetInputDir,
      "kube-controller-manager-config-overrides.yaml"]) sampleInputNoOverride = none ∧
    (sampleOpts.Run (sampleWorld sampleInputNoOverride sampleBindata) (St.init [])).1
      = .err (.Errorf "failed to generated bootstrap config: %v" []
          (.Errorf "failed to load config overrides at %q: %v"
            ["in/kube-controller-manager-config-overrides.yaml"]
            (.Errorf "failed to load %q: %v"
              ["in/kube-controller-manager-config-overrides.yaml"]
              (.New "no such file or directory")))) ∧
    mergeCalls (sampleOpts.Run (sampleWorld sampleInputNoOverride sampleBindata)
      (St.init [])).2.2.log = [] := by
  decide

/-- C2, amended: with `configOverrideFile` empty, `Run` sets it to
`filepath.Join(assetInputDir, "kube-controller-manager-config-overrides.yaml")` and the user
override at that path is mandatory in both merge runs: each `MergeProcessConfig` call of
the run is handed three layers and comes after the override was read at that path in the
file system the run was in at that moment. That file system is the replay of the log
before the call: replaying the writes of the whole log gives the file system `Run` ends
in. When the override cannot be read at that path in any file system the run passes
through, `Run` does not return nil, no merge is run, and nothing is written with
`ioutil.WriteFile`. -/
theorem Run_requires_default_override (r : renderOpts) (fs : σ)
    (hempty : r.configOverrideFile = "") :
    (r.Run W (St.init fs)).2.1.configOverrideFile
      = filepath.Join [r.assetInputDir, "kube-controller-manager-config-overrides.yaml"] ∧
    (r.Run W (St.init fs)).2.2.fs = replay W fs (r.Run W (St.init fs)).2.2.log ∧
    (∀ pre layers post,
      (r.Run W (St.init fs)).2.2.log = pre ++ .MergeProcessConfig layers :: post →
      layers.length = 3 ∧
      ∃ tpl, W.ReadFile (replay W fs pre)
        (filepath.Join [r.assetInputDir, "kube-controller-manager-config-overrides.yaml"])
          = .ok tpl) ∧
    ((∀ pre, pre <+: (r.Run W (St.init fs)).2.2.log →
        ∀ tpl, W.ReadFile (replay W fs pre)
          (filepath.Join [r.assetInputDir, "kube-controller-manager-config-overrides.yaml"])
            ≠ .ok tpl) →
      (r.Run W (St.init fs)).1 ≠ .ok () ∧
      mergeCalls (r.Run W (St.init fs)).2.2.log = [] ∧
      writtenFiles (r.Run W (St.init fs)).2.2.log = []) := by
  have hcof : r.complete.1.configOverrideFile
      = filepath.Join [r.assetInputDir, "kube-controller-manager-config-overrides.yaml"] := by
    simp [renderOpts.complete, hempty]
  obtain ⟨⟨evs, hlog, hall⟩, hfinal⟩ := Run_steps W r fs
  simp only [St.init, List.nil_append] at hlog hall
  have hmerge : ∀ pre layers post,
      (r.Run W (St.init fs)).2.2.log = pre ++ .MergeProcessConfig layers :: post →
      layers.length = 3 ∧
      ∃ tpl, W.ReadFile (replay W fs pre)
        (filepath.Join [r.assetInputDir, "kube-controller-manager-config-overrides.yaml"])
          = .ok tpl := by
    intro pre layers post hsplit
    have := hall pre _ post (hlog.symm.trans hsplit)
    simp only [runStep] at this
    rw [hcof] at this
    exact this
  refine ⟨by rw [Run_receiver, hcof], hfinal, hmerge, ?_⟩
  intro hmiss
  have hnomerge : mergeCalls (r.Run W (St.init fs)).2.2.log = [] := by
    unfold mergeCalls
    rw [List.filterMap_eq_nil_iff]
    intro e he
    obtain ⟨pre, post, hsplit⟩ := List.append_of_mem he
    cases e with
    | MergeProcessConfig layers =>
      obtain ⟨_, tpl, htpl⟩ := hmerge pre layers post hsplit
      exact absurd htpl (hmiss pre ⟨_, hsplit.symm⟩ tpl)
    | _ => rfl
  have hnowrite : writtenFiles (r.Run W (St.init fs)).2.2.log = [] := by
    unfold writtenFiles
    rw [List.filterMap_eq_nil_iff]
    intro e he
    obtain ⟨pre, post, hsplit⟩ := List.append_of_mem he
    cases e with
    | WriteFile filename data perm =>
      have hpre : mergeCalls pre ≠ [] := hall pre _ post (hlog.symm.trans hsplit)
      rw [hsplit, mergeCalls_append] at hnomerge
      exact absurd (List.append_eq_nil.mp hnomerge).1 hpre
    | _ => rfl
  refine ⟨?_, hnomerge, hnowrite⟩
  intro hok
  obtain ⟨_, _, _, _, b, s4, _, _, _, _, _, _, hrun⟩ := Run_ok_inv W r (St.init fs) hok
  rw [hrun] at hnowrite
  simp [writtenFiles] at hnowrite
/-- The sample run of the amended C2 in the read-after-write environment: no override at
the conventional path in any file system the run passes through, and `Run` fails without
merging and without writing the configuration. -/
theorem Run_requires_default_override_witness :
    sampleOpts.configOverrideFile = "" ∧
    (∀ pre ∈ (sampleOpts.Run (sampleWorldRW sampleBindata)
        (St.init sampleInputNoOverride)).2.2.log.inits,
      ((sampleWorldRW sampleBindata).ReadFile
        (replay (sampleWorldRW sampleBindata) sampleInputNoOverride pre)
        "in/kube-controller-manager-config-overrides.yaml").toOption = none) ∧
    (sampleOpts.Run (sampleWorldRW sampleBindata) (St.init sampleInputNoOverride)).1
      ≠ .ok () ∧
    mergeCalls (sampleOpts.Run (sampleWorldRW sampleBindata)
      (St.init sampleInputNoOverride)).2.2.log = [] ∧
    writtenFiles (sampleOpts.Run (sampleWorldRW sampleBindata)
      (St.init sampleInputNoOverride)).2.2.log = [] := by
  have hm : ∀ pre ∈ (sampleOpts.Run (sampleWorldRW sampleBindata)
        (St.init sampleInputNoOverride)).2.2.log.inits,
      ((sampleWorldRW sampleBindata).ReadFile
        (replay (sampleWorldRW sampleBindata) sampleInputNoOverride pre)
        "in/kube-controller-manager-config-overrides.yaml").toOption = none := by
    decide
  have h := (Run_requires_default_override (sampleWorldRW sampleBindata) sampleOpts
    sampleInputNoOverride rfl).2.2.2
    (fun pre hpre tpl hread => by
      have := hm pre ((List.mem_inits _ _).mpr hpre)
      rw [show filepath.Join [sampleOpts.assetInputDir,
        "kube-controller-manager-config-overrides.yaml"]
          = "in/kube-controller-manager-config-overrides.yaml" from rfl] at hread
      rw [hread] at this
      simp [Except.toOption] at this)
  exact ⟨rfl, hm, h⟩

/-- C7, as stated, fails: in the sample run the templates of the post-bootstrap call are
executed against the `Config` built from the manifest options, and those of the bootstrap
call against a `Config` that also carries the post-bootstrap result and the loaded assets;
the two values differ. -/
theorem Run_config_differs_between_calls :
    executeCalls (sampleOpts.Run (sampleWorld sampleInput sampleBindata) (St.init [])).2.2.log
      = [("tpl/config/config-overrides.yaml", sampleOpts.renderConfig),
         ("in/kube-controller-manager-config-overrides.yaml", sampleOpts.renderConfig),
         ("tpl/config/bootstrap-config-overrides.yaml",
          { sampleOpts.renderConfig with
            PostBootstrapKubeControllerManagerConfig := "a: 1\nb: 2\nd: 4\n"
            Assets := [("kube-controller-manager-config-overrides.yaml", "d: 4\n"),
                       ("tls/ca.crt", "CERT\n")] }),
         ("in/kube-controller-manager-config-overrides.yaml",
          { sampleOpts.renderConfig with
            PostBootstrapKubeControllerManagerConfig := "a: 1\nb: 2\nd: 4\n"
            Assets := [("kube-controller-manager-config-overrides.yaml", "d: 4\n"),
                       ("tls/ca.crt", "CERT\n")] })] ∧
    sampleOpts.renderConfig ≠
      { sampleOpts.renderConfig with
        PostBootstrapKubeControllerManagerConfig := "a: 1\nb: 2\nd: 4\n"
        Assets := [("kube-controller-manager-config-overrides.yaml", "d: 4\n"),
                   ("tls/ca.crt", "CERT\n")] } := by
  decide

/-- C7, amended: every `Config` that `Run` hands to a template execution or to `assets.New`
carries the seven render parameters of the manifest options, so the two merge runs agree
on them; the fields `PostBootstrapKubeControllerManagerConfig` and `Assets`, which `Run`
sets between the two runs, are not covered. -/
theorem Run_template_data_parameters (r : renderOpts) (fs : σ) :
    ∀ c ∈ (r.Run W (St.init fs)).2.2.log.filterMap Event.data?,
      c.Namespace = r.manifest.namespace_ ∧ c.Image = r.manifest.image ∧
      c.ImagePullPolicy = r.manifest.imagePullPolicy ∧
      c.ConfigHostPath = r.manifest.configHostPath ∧
      c.ConfigFileName = r.manifest.configFileName ∧
      c.CloudProviderHostPath = r.manifest.cloudProviderHostPath ∧
      c.SecretsHostPath = r.manifest.secretsHostPath := by
  intro c hc
  obtain ⟨evs, hlog, hall⟩ := Run_log W r (St.init fs)
  obtain ⟨hm, _⟩ := renderOpts.complete_fields r
  rw [hlog] at hc
  simp only [St.init, List.nil_append, List.mem_filterMap] at hc
  obtain ⟨e, he, hec⟩ := hc
  have hr := (hall e he).1
  rw [← hm]
  cases e <;> simp_all [Event.data?, runEvent, Config.hasParameters]

/-- C3: in the sample run without the post-bootstrap overlay, the post-bootstrap call of
`configFromDefaultsPlusOverride` returns an error, and `Run` still renders and writes the
manifests, writes the configuration file and returns nil. -/
theorem Run_ignores_post_bootstrap_failure :
    (sampleOpts.complete.1.configFromDefaultsPlusOverride
        (sampleWorld sampleInputNoPostBootstrap sampleBindata) sampleOpts.renderConfig
        (filepath.Join [sampleOpts.templatesDir, "config", "config-overrides.yaml"])
        (St.init [])).1
      = .err (.Errorf "failed to load config override file %q: %v"
          ["tpl/config/config-overrides.yaml"]
          (.Errorf "failed to load %q: %v" ["tpl/config/config-overrides.yaml"]
            (.New "no such file or directory"))) ∧
    (sampleOpts.Run (sampleWorld sampleInputNoPostBootstrap sampleBindata) (St.init [])).1
      = .ok () ∧
    (sampleOpts.Run (sampleWorld sampleInputNoPostBootstrap sampleBindata) (St.init [])).2.2.fs
      = [("out/bootstrap-manifests/kube-controller-manager-pod.yaml", "kind: Pod\n"),
         ("out/bootstrap-manifests/kube-scheduler-pod.yaml", "kind: Pod\n"),
         ("out/manifests/secret.yaml", "kind: Secret\n"),
         ("out/config.yaml", "a: 1\nc: 3\nd: 4\n")] := by
  decide

/-- C8: in the sample run with `skipSchedulerBootstrapManifest` set, `Run` returns nil and
`kube-scheduler-pod.yaml` of the bootstrap manifest templates is written below
`assetOutputDir/bootstrap-manifests`. -/
theorem Run_writes_scheduler_manifest_when_skipping :
    sampleOptsSkip.skipSchedulerBootstrapManifest = true ∧
    (sampleOptsSkip.Run (sampleWorld sampleInput sampleBindata) (St.init [])).1 = .ok () ∧
    lookupFile "tpl/bootstrap-manifests/kube-scheduler-pod.yaml" sampleInput
      = some "kind: Pod\n" ∧
    lookupFile "out/bootstrap-manifests/kube-scheduler-pod.yaml"
      (sampleOptsSkip.Run (sampleWorld sampleInput sampleBindata) (St.init [])).2.2.fs
      = some "kind: Pod\n" := by
  decide

/-- The sample run of the amended C7: the `Config` of the first template execution carries
the namespace of the manifest options. -/
theorem Run_template_data_parameters_witness :
    sampleOpts.renderConfig ∈
      (sampleOpts.Run (sampleWorld sampleInput sampleBindata) (St.init [])).2.2.log.filterMap
        Event.data? ∧
    sampleOpts.renderConfig.Namespace = "openshift-kube-controller-manager" :=
  ⟨by decide, (Run_template_data_parameters (sampleWorld sampleInput sampleBindata)
    sampleOpts [] sampleOpts.renderConfig (by decide)).1⟩

/-- The scheduler predicate accepts a file exactly when the skip flag is unset or the file
is not named `kube-scheduler-pod.yaml`. -/
theorem skipSchedulerPredicate_eq_true_iff (r : renderOpts) (f : FileInfo) :
    skipSchedulerPredicate r f = true ↔
      (r.skipSchedulerBootstrapManifest = false ∨ f.Name ≠ "kube-scheduler-pod.yaml") := by
  unfold skipSchedulerPredicate
  cases r.skipSchedulerBootstrapManifest <;> simp

/-- In every environment, each `assets.New` call of `Run` is given the YAML predicate alone,
and each `assets.LoadFilesRecursively` call reads `assetInputDir` with the scheduler
predicate alone: the skip flag filters the loaded assets and never the manifests. -/
theorem Run_predicates (r : renderOpts) (fs : σ) :
    ∀ e ∈ (r.Run W (St.init fs)).2.2.log,
      match e with
      | .New _ _ predicates => predicates = [W.OnlyYaml]
      | .LoadFilesRecursively dir predicates =>
        dir = r.assetInputDir ∧ predicates = [skipSchedulerPredicate r]
      | _ => True := by
  intro e he
  obtain ⟨evs, hlog, hall⟩ := Run_log W r (St.init fs)
  obtain ⟨_, _, hi, _, _, hk, _, _⟩ := renderOpts.complete_fields r
  have hp : skipSchedulerPredicate r.complete.1 = skipSchedulerPredicate r := by
    funext f
    simp [skipSchedulerPredicate, hk]
  rw [hlog] at he
  simp only [St.init, List.nil_append] at he
  have hr := (hall e he).1
  cases e <;> simp_all [runEvent]

/-- The sample run with the skip flag set: the bootstrap manifests are rendered with the
YAML predicate alone. -/
theorem Run_predicates_witness :
    (sampleOptsSkip.Run (sampleWorld sampleInput sampleBindata) (St.init [])).2.2.log[10]?
      = some (Event.New "tpl/bootstrap-manifests"
        { sampleOptsSkip.renderConfig with
          PostBootstrapKubeControllerManagerConfig := "a: 1\nb: 2\nd: 4\n"
          Assets := [("kube-controller-manager-config-overrides.yaml", "d: 4\n"),
                     ("tls/ca.crt", "CERT\n")] }
        [(sampleWorld sampleInput sampleBindata).OnlyYaml]) ∧
    [(sampleWorld sampleInput sampleBindata).OnlyYaml]
      = [(sampleWorld sampleInput sampleBindata).OnlyYaml] :=
  ⟨rfl, Run_predicates (sampleWorld sampleInput sampleBindata) sampleOptsSkip [] _
    (List.getElem?_mem (show (sampleOptsSkip.Run (sampleWorld sampleInput sampleBindata)
      (St.init [])).2.2.log[10]? = some _ from rfl))⟩
end pipeline

end Render
